import Mathlib

/-!
Shallow embedding of the federation core of the `social` repository:
the HTTP-signature middleware (`src/middleware/httpSignature.js`), the
delivery helper (`deliverToInbox`), and the inbox activity handlers
(`handleFollow` / `handleCreate` / `handleUndo` / `handleAccept` /
`handleReject`).  JavaScript string primitives (`split`, `trim`,
`replace(/^"/ ...)`, template literals, object property access) are
re-implemented over `List Char` with JS semantics so that the parsing
behaviour — in particular `pair.split('=')` truncating values at the
first `=` — is captured exactly.
-/

namespace Social

/-! ## JavaScript string and object primitives -/

/-- Whitespace as trimmed by `String.prototype.trim` (ASCII fragment). -/
def jsIsWs (c : Char) : Bool := c == ' ' || c == '\t' || c == '\n' || c == '\r'

/-- `String.prototype.trim` on a character list. -/
def jsTrim (l : List Char) : List Char :=
  ((l.dropWhile jsIsWs).reverse.dropWhile jsIsWs).reverse

/-- `value.replace(/^"/, '')`: drop one leading double quote. -/
def stripLeadQuote : List Char → List Char
  | '"' :: rest => rest
  | l => l

/-- `value.replace(/"$/, '')`: drop one trailing double quote. -/
def stripTrailQuote (l : List Char) : List Char :=
  if l.getLast? = some '"' then l.dropLast else l

/-- The two `replace` calls of `parseSignatureHeader`, in source order. -/
def jsStripQuotes (l : List Char) : List Char := stripTrailQuote (stripLeadQuote l)

/-- `String.prototype.split` with a one-character separator
(`''.split(sep)` gives `['']`, separators at the ends give empty pieces). -/
def splitCharAux (sep : Char) : List Char → List (List Char)
  | [] => [[]]
  | c :: rest =>
    match splitCharAux sep rest with
    | [] => [[]]
    | g :: gs => if c = sep then [] :: g :: gs else (c :: g) :: gs

/-- `s.split(sep)` for a one-character separator. -/
def jsSplit (sep : Char) (s : String) : List String :=
  (splitCharAux sep s.data).map (fun l => String.mk l)

/-- `Array.prototype.join` with a one-character separator, on char lists. -/
def joinSep (sep : Char) : List (List Char) → List Char
  | [] => []
  | [l] => l
  | l :: ls => l ++ sep :: joinSep sep ls

/-- `arr.join(sep)` for a list of strings. -/
def jsJoin (sep : Char) (ls : List String) : String :=
  ⟨joinSep sep (ls.map String.data)⟩

/-- ASCII `toLowerCase` on one character. -/
def jsCharLower (c : Char) : Char :=
  if 'A' ≤ c ∧ c ≤ 'Z' then Char.ofNat (c.toNat + 32) else c

/-- ASCII `toUpperCase` on one character. -/
def jsCharUpper (c : Char) : Char :=
  if 'a' ≤ c ∧ c ≤ 'z' then Char.ofNat (c.toNat - 32) else c

/-- `s.toLowerCase()` (ASCII fragment). -/
def jsToLower (s : String) : String := ⟨s.data.map jsCharLower⟩

/-- `s.toUpperCase()` (ASCII fragment). -/
def jsToUpper (s : String) : String := ⟨s.data.map jsCharUpper⟩

/-- JS object property read (`o[k]`), case-sensitive; keys are strings. -/
def jsObjGet (o : List (String × String)) (k : String) : Option String :=
  (o.find? (fun p => p.1 == k)).map (fun p => p.2)

/-- JS object property write (`o[k] = v`): overwrite in place, else append. -/
def jsObjSet (o : List (String × String)) (k v : String) : List (String × String) :=
  if o.any (fun p => p.1 == k) then o.map (fun p => if p.1 == k then (k, v) else p)
  else o ++ [(k, v)]

/-- JS truthiness of a possibly-absent string (`undefined` and `''` are falsy). -/
def jsTruthy : Option String → Bool
  | none => false
  | some v => v != ""

/-- `s.startsWith(p)`. -/
def jsStartsWith (p : List Char) (s : String) : Bool := p.isPrefixOf s.data

/-- `s.substring(n)`. -/
def jsDropChars (n : Nat) (s : String) : String := ⟨s.data.drop n⟩

/-- `s.split('/').pop()`: the last segment of a `/`-separated string. -/
def lastSegment (s : String) : String := ((jsSplit '/' s).getLast?).getD ""

/-! ## base64 (RFC 4648, standard alphabet)

`createSignature` emits `signature.toString('base64')` (with `=` padding);
the verifier decodes with `Buffer.from(str, 'base64')`, which is lenient:
characters outside the base64 alphabet — including `=` — are skipped, so
missing padding does not change the decoded bytes. -/

/-- The base64 digit for a 6-bit value. -/
def b64Char (n : Nat) : Char :=
  if n < 26 then Char.ofNat (65 + n)
  else if n < 52 then Char.ofNat (97 + (n - 26))
  else if n < 62 then Char.ofNat (48 + (n - 52))
  else if n = 62 then '+'
  else '/'

/-- Membership in the base64 alphabet. -/
def isB64Char (c : Char) : Bool :=
  ('A' ≤ c && c ≤ 'Z') || ('a' ≤ c && c ≤ 'z') || ('0' ≤ c && c ≤ '9') || c == '+' || c == '/'

/-- The 6-bit value of a base64 digit. -/
def b64Val (c : Char) : Nat :=
  if 'A' ≤ c ∧ c ≤ 'Z' then c.toNat - 65
  else if 'a' ≤ c ∧ c ≤ 'z' then c.toNat - 97 + 26
  else if '0' ≤ c ∧ c ≤ '9' then c.toNat - 48 + 52
  else if c = '+' then 62
  else 63

/-- base64 digits of a byte list (no padding characters). -/
def b64EncodeChars : List Nat → List Char
  | [] => []
  | [b1] => [b64Char (b1 / 4), b64Char (b1 % 4 * 16)]
  | [b1, b2] => [b64Char (b1 / 4), b64Char (b1 % 4 * 16 + b2 / 16), b64Char (b2 % 16 * 4)]
  | b1 :: b2 :: b3 :: rest =>
    b64Char (b1 / 4) :: b64Char (b1 % 4 * 16 + b2 / 16) ::
      b64Char (b2 % 16 * 4 + b3 / 64) :: b64Char (b3 % 64) :: b64EncodeChars rest

/-- The `=` padding appended by `toString('base64')`. -/
def b64PadStr (bytes : List Nat) : String :=
  match bytes.length % 3 with
  | 1 => "=="
  | 2 => "="
  | _ => ""

/-- `Buffer.prototype.toString('base64')`: digits plus padding. -/
def b64Encode (bytes : List Nat) : String := ⟨b64EncodeChars bytes⟩ ++ b64PadStr bytes

/-- Decode groups of base64 digits into bytes (2/3/4 trailing digits give 1/2/3 bytes). -/
def b64DecodeGroups : List Char → List Nat
  | c1 :: c2 :: c3 :: c4 :: rest =>
    (b64Val c1 * 4 + b64Val c2 / 16) :: (b64Val c2 % 16 * 16 + b64Val c3 / 4) ::
      (b64Val c3 % 4 * 64 + b64Val c4) :: b64DecodeGroups rest
  | [c1, c2] => [b64Val c1 * 4 + b64Val c2 / 16]
  | [c1, c2, c3] => [b64Val c1 * 4 + b64Val c2 / 16, b64Val c2 % 16 * 16 + b64Val c3 / 4]
  | _ => []

/-- `Buffer.from(s, 'base64')`: lenient decode, non-alphabet characters skipped. -/
def b64Decode (s : String) : List Nat := b64DecodeGroups (s.data.filter isB64Char)

/-! ## Symbolic model of the Node `crypto` primitives

RSA-PSS over SHA-256 is modelled symbolically: a key pair is a private
string and the tagged public string `pubOfPriv priv`; `rsaSign` produces a
non-empty byte list determined by the private key and the message, and
`rsaVerify` accepts exactly the bytes that the matching private key signs
over the same message.  All claims below depend only on these algebraic
facts, not on actual RSA arithmetic. -/

/-- The public key matching a private key (symbolic pairing). -/
def pubOfPriv (priv : String) : String := "PUB:" ++ priv

/-- Recover the private partner of a symbolic public key. -/
def privFromPub (pub : String) : String := ⟨pub.data.drop 4⟩

/-- `crypto.sign('sha256', msg, privateKey)` (symbolic): non-empty bytes `< 256`. -/
def rsaSign (privateKey message : String) : List Nat :=
  1 :: (privateKey ++ "|" ++ message).data.map (fun c => c.toNat % 256)

/-- `crypto.verify('sha256', msg, publicKey, sig)` (symbolic). -/
def rsaVerify (publicKey message : String) (sig : List Nat) : Bool :=
  sig == rsaSign (privFromPub publicKey) message

/-- `crypto.createHash('sha256')...digest()` (symbolic byte output). -/
def sha256Model (s : String) : List Nat := s.data.map (fun c => c.toNat % 256)

/-- `JSON.stringify` applied to the request body (symbolic). -/
def jsonStringifyModel (s : String) : String := "\"" ++ s ++ "\""

/-! ## `src/middleware/httpSignature.js` -/

/-- The parameter object built by `parseSignatureHeader` (JS object:
insertion-ordered keys, later writes overwrite in place). -/
abbrev SigParams := List (String × String)

/-- Property read on the parsed parameter object. -/
def getParam (ps : SigParams) (k : String) : Option String := jsObjGet ps k

/-- One iteration of the `forEach` in `parseSignatureHeader`:
`const [key, value] = pair.split('=')`, keep the pair when both `key` and
`value` are truthy, trim both and strip one layer of quotes from the value. -/
def parsePair (acc : SigParams) (pair : String) : SigParams :=
  match jsSplit '=' pair with
  | [] => acc
  | key :: rest =>
    match rest.head? with
    | none => acc
    | some value =>
      if key != "" && value != "" then
        jsObjSet acc ⟨jsTrim key.data⟩ ⟨jsStripQuotes (jsTrim value.data)⟩
      else acc

/-- `parseSignatureHeader` (lines 8–25): `null` when the header is absent or
empty, otherwise strip an optional `Signature ` marker, split the rest on
`,` and process each `key=value` pair. -/
def parseSignatureHeader (header : Option String) : Option SigParams :=
  match header with
  | none => none
  | some h =>
    if h = "" then none
    else
      let hv := if jsStartsWith "Signature ".data h then jsDropChars 10 h else h
      some ((jsSplit ',' hv).foldl parsePair [])

/-- The observable part of an Express request used by the middleware. -/
structure Request where
  method : String
  path : String
  headers : List (String × String)

/-- `req.get(name)`: case-insensitive header lookup. -/
def reqGet (req : Request) (name : String) : Option String :=
  (req.headers.find? (fun p => jsToLower p.1 == jsToLower name)).map (fun p => p.2)

/-- One row of the `user` table, restricted to the columns the verifier reads. -/
structure User where
  actorUrl : String
  publicKey : String

/-- `prisma.user.findFirst({ where: { actorUrl: keyId } })`. -/
def findActor (store : List User) (keyId : String) : Option User :=
  store.find? (fun u => u.actorUrl == keyId)

/-- One line of the verifier's signing-string reconstruction (lines 56–65). -/
def signingLine (req : Request) (h : String) : Except String String :=
  if h = "(request-target)" then
    .ok ("(request-target): " ++ jsToLower req.method ++ " " ++ req.path)
  else
    let value := (reqGet req (jsToLower h)).getD ""
    if value = "" then .error ("Missing required header in signature: " ++ h)
    else .ok (jsToLower h ++ ": " ++ value)

/-- The verifier's `headersToSign.map(...).join('\n')`; a throw inside the
`map` aborts the whole construction. -/
def reconstructSigningString (req : Request) (names : List String) : Except String String :=
  (names.mapM (signingLine req)).map (jsJoin '\n')

/-- The object returned by `verifySignature`. -/
structure VerifyResult where
  verified : Bool
  keyId : Option String := none
  algorithm : Option String := none
  headers : Option String := none
  error : Option String := none
  deriving DecidableEq, Repr

/-- The `for (const param of requiredParams)` presence loop (lines 36–41):
first required parameter that is absent or empty, in source order. -/
def firstMissingParam (ps : SigParams) : Option String :=
  ["keyId", "algorithm", "headers", "signature"].find? (fun p => !(jsTruthy (getParam ps p)))

/-- The body of `verifySignature` (lines 28–89) before the `catch`. -/
def verifySignatureE (store : List User) (req : Request) : Except String VerifyResult :=
  match parseSignatureHeader (reqGet req "signature") with
  | none => .error "No signature header"
  | some ps =>
    match firstMissingParam ps with
    | some p => .error ("Missing required signature parameter: " ++ p)
    | none =>
      let keyId := (getParam ps "keyId").getD ""
      match findActor store keyId with
      | none => .error ("Actor not found or has no public key: " ++ keyId)
      | some actor =>
        if actor.publicKey = "" then
          .error ("Actor not found or has no public key: " ++ keyId)
        else
          let headersToSign := jsSplit ' ' ((getParam ps "headers").getD "")
          match reconstructSigningString req headersToSign with
          | .error e => .error e
          | .ok signingString =>
            if rsaVerify actor.publicKey signingString
                (b64Decode ((getParam ps "signature").getD "")) then
              .ok { verified := true, keyId := some keyId,
                    algorithm := getParam ps "algorithm", headers := getParam ps "headers" }
            else .error "Invalid signature"

/-- `verifySignature` with its `catch`: any throw becomes
`{ verified: false, error }`. -/
def verifySignature (store : List User) (req : Request) : VerifyResult :=
  match verifySignatureE store req with
  | .ok r => r
  | .error e => { verified := false, error := some e }

/-- Outcome of the `httpSignature()` middleware: call `next()` (with the
verification result stored on the request unless the development bypass
fired), or answer `401 { error, details }`. -/
inductive MwOutcome where
  | proceed (sig : Option VerifyResult)
  | unauthorized (details : Option String)
  deriving DecidableEq

/-- The middleware (lines 100–120); `devSkip` is the
`NODE_ENV === 'development' && SKIP_SIGNATURE_VERIFICATION === 'true'` flag. -/
def httpSignatureMw (devSkip : Bool) (store : List User) (req : Request) : MwOutcome :=
  if devSkip then .proceed none
  else
    let result := verifySignature store req
    if !result.verified then .unauthorized result.error
    else .proceed (some result)

/-- `new URL(url)`: the components `createSignature` reads
(`search` is `""` or starts with `?`). -/
structure URLParts where
  pathname : String
  search : String

/-- The wire format of line 169:
`keyId="…",algorithm="…",headers="…",signature="…"`. -/
def mkSigHeaderRaw (kid alg hnames sigVal : String) : String :=
  "keyId=\"" ++ kid ++ "\",algorithm=\"" ++ alg ++ "\",headers=\"" ++ hnames ++
    "\",signature=\"" ++ sigVal ++ "\""

/-- `createSignature` (lines 123–180).  `now` stands for
`new Date().toUTCString()`, used only when no truthy `date` key is present.
Returns the signature header value and the final header object
(`{...headers, signature, content-type, accept}`). -/
def createSignature (privateKey keyId : String) (method : String) (url : URLParts)
    (headers0 : List (String × String)) (body : String) (now : String) :
    String × List (String × String) :=
  let hdrs1 := if jsTruthy (jsObjGet headers0 "date") then headers0 else jsObjSet headers0 "date" now
  let hdrs2 :=
    if (jsToUpper method == "POST" || jsToUpper method == "PUT") && body != "" then
      jsObjSet hdrs1 "digest" ("SHA-256=" ++ b64Encode (sha256Model (jsonStringifyModel body)))
    else hdrs1
  let headersToSign :=
    ["(request-target)", "host", "date"] ++
      (if jsTruthy (jsObjGet hdrs2 "digest") then ["digest"] else [])
  let signingString := jsJoin '\n' (headersToSign.map (fun h =>
    if h = "(request-target)" then
      "(request-target): " ++ jsToLower method ++ " " ++ (url.pathname ++ url.search)
    else
      h ++ ": " ++ ((jsObjGet hdrs2 h).getD "undefined")))
  let sigHeader := mkSigHeaderRaw keyId "rsa-sha256" (jsJoin ' ' headersToSign)
    (b64Encode (rsaSign privateKey signingString))
  (sigHeader,
   jsObjSet (jsObjSet (jsObjSet hdrs2 "signature" sigHeader)
       "content-type" "application/activity+json")
     "accept" "application/activity+json")

/-- Re-encoding of parsed parameters in the wire format of line 169
(used to state the codec round-trip claim). -/
def reEncodeSignatureHeader (ps : SigParams) : String :=
  mkSigHeaderRaw ((getParam ps "keyId").getD "") ((getParam ps "algorithm").getD "")
    ((getParam ps "headers").getD "") ((getParam ps "signature").getD "")

/-! ## `deliverToInbox` (activityPub utility file) -/

/-- Outcome of the single `axios.post` call: a response with a status, or a
network-level error. -/
inductive HttpOutcome where
  | response (status : Nat)
  | networkError (message : String)
  deriving DecidableEq

/-- The object returned by `deliverToInbox` (fields the claims mention). -/
structure DeliveryResult where
  success : Bool
  status : Option Nat
  error : Option String
  deriving DecidableEq, Repr

/-- The `validateStatus` callback passed to axios (line 89):
`status >= 200 && status < 300 || status === 401`. -/
def deliverValidateStatus (status : Nat) : Bool :=
  (200 ≤ status && status < 300) || status == 401

/-- `deliverToInbox` (lines 66–108) as a function of the HTTP outcome: a
response accepted by `validateStatus` resolves and yields `success: true`;
a rejected status throws an axios error carrying `error.response.status`;
a network error throws with no response.  The `catch` turns a throw into
`{ success: false, error, status }`. -/
def deliverToInbox (outcome : HttpOutcome) : DeliveryResult :=
  match outcome with
  | .response st =>
    if deliverValidateStatus st then { success := true, status := some st, error := none }
    else { success := false, status := some st,
           error := some ("Request failed with status code " ++ toString st) }
  | .networkError msg => { success := false, status := none, error := some msg }

/-- `deliverToInbox` run against an environment giving the outcome of the
`n`-th HTTP attempt, together with the number of HTTP calls performed.  The
function body contains exactly one `axios.post` and no loop, so precisely
one call — `env 0` — is ever issued. -/
def deliverToInboxRun (env : Nat → HttpOutcome) : DeliveryResult × Nat :=
  (deliverToInbox (env 0), 1)

/-! ## Inbox activity handlers (federation router)

The handlers live in the router file; the Prisma stores they call
(`prisma.follow`, `prisma.post`) are declared in a schema that is not part
of the sources, so the stores are modelled from the spec. -/

/-- The public addressing collection checked by `handleCreate`. -/
def publicCollection : String := "https://www.w3.org/ns/activitystreams#Public"

/-- One row of the Follow store. -/
structure FollowRow where
  followerId : String
  followingId : String
  status : String
  deriving DecidableEq, Repr

/-- One row of the Post store (columns written by `handleCreate`). -/
structure PostRow where
  id : String
  content : String
  userId : String
  uri : String
  url : String
  isPublic : Bool
  contentWarning : String
  inReplyTo : String
  sensitive : Bool
  deriving DecidableEq, Repr

/-- The local persistent state the inbox handlers touch. -/
structure DB where
  follows : List FollowRow
  posts : List PostRow
  deriving DecidableEq, Repr

/-- The `where` filter `{ followerId: f, followingId: g }`. -/
def followMatches (f g : String) (r : FollowRow) : Bool :=
  r.followerId == f && r.followingId == g

/-- Modelled from the spec: `prisma.follow.create` against the Follow store,
whose schema is not in the sources.  Spec §6 requires every store operation
to be idempotent on repeated identical calls and §3 fixes the invariant of
at most one relationship per (follower, following) pair, so creation is a
no-op when a row for the pair already exists. -/
def followCreate (db : DB) (f g st : String) : DB :=
  if db.follows.any (followMatches f g) then db
  else { db with follows := db.follows ++ [⟨f, g, st⟩] }

/-- `prisma.follow.updateMany({ where: {f, g}, data: { status } })`. -/
def followUpdateStatus (db : DB) (f g st : String) : DB :=
  { db with follows := db.follows.map (fun r =>
      if followMatches f g r then { r with status := st } else r) }

/-- `prisma.follow.deleteMany({ where: {f, g} })`. -/
def followDeleteMany (db : DB) (f g : String) : DB :=
  { db with follows := db.follows.filter (fun r => !(followMatches f g r)) }

/-- Modelled from the spec: `prisma.post.create` against the Post store,
whose schema is not in the sources.  Spec §4.5 keys Post creation by the
unique activity object id and §6 requires idempotency on repeated identical
calls, so creation is a no-op when a post with the same id exists. -/
def postCreate (db : DB) (p : PostRow) : DB :=
  if db.posts.any (fun q => q.id == p.id) then db
  else { db with posts := db.posts ++ [p] }

/-- The fields of an incoming `Note` object that `handleCreate` reads
(absent JSON fields are the empty string / `false`).  `toAddr` / `ccAddr`
stand for the JSON `to` / `cc` addressing lists (`to` is reserved in Lean). -/
structure Note where
  type : String
  id : String
  content : String
  url : String
  toAddr : List String
  ccAddr : List String
  summary : String
  inReplyTo : String
  sensitive : Bool
  deriving DecidableEq, Repr

/-- A `Create` activity: `{ actor, object }`. -/
structure CreateActivity where
  actor : String
  object : Note
  deriving DecidableEq, Repr

/-- A `Follow` activity: `{ actor, object }`, both actor URIs. -/
structure FollowActivity where
  actor : String
  object : String
  deriving DecidableEq, Repr

/-- The embedded object of an `Undo`/`Accept`/`Reject` activity. -/
structure InnerFollow where
  type : String
  actor : String
  object : String
  deriving DecidableEq, Repr

/-- `handleFollow` (lines 181–205): store the follow request with status
`PENDING`.  (The auto-accept it then sends is outbound network traffic and
does not touch the local state.) -/
def handleFollow (db : DB) (a : FollowActivity) : DB :=
  followCreate db a.actor a.object "PENDING"

/-- `handleCreate` (lines 207–225): persist a `Note` object as a Post;
`isPublic` is `object.to.includes('https://www.w3.org/ns/activitystreams#Public')`. -/
def handleCreate (db : DB) (a : CreateActivity) : DB :=
  if a.object.type = "Note" then
    postCreate db {
      id := a.object.id
      content := a.object.content
      userId := lastSegment a.actor
      uri := a.object.id
      url := if a.object.url = "" then a.object.id else a.object.url
      isPublic := a.object.toAddr.contains publicCollection
      contentWarning := a.object.summary
      inReplyTo := a.object.inReplyTo
      sensitive := a.object.sensitive }
  else db

/-- `handleUndo` (lines 227–238): delete the relationship rows of the
undone Follow. -/
def handleUndo (db : DB) (inner : InnerFollow) : DB :=
  if inner.type = "Follow" then followDeleteMany db inner.actor inner.object else db

/-- `handleAccept` (lines 240–254): set the matching rows to `ACCEPTED`. -/
def handleAccept (db : DB) (inner : InnerFollow) : DB :=
  if inner.type = "Follow" then followUpdateStatus db inner.actor inner.object "ACCEPTED" else db

/-- `handleReject` (lines 256–267): delete the matching rows. -/
def handleReject (db : DB) (inner : InnerFollow) : DB :=
  if inner.type = "Follow" then followDeleteMany db inner.actor inner.object else db

/-- At most one relationship row per (follower, following) pair. -/
def pairUnique (l : List FollowRow) : Prop :=
  ∀ f g, (l.filter (followMatches f g)).length ≤ 1

/-- Modelled from the spec: the signing-string construction of §4.1 /
§8 — for each name in order emit `<lowercased name>: <value>` with the
value taken verbatim, `(request-target)` expanding to
`<lowercased method> <path>`, lines joined by newline. -/
def specSigningString (method path : String) (names : List String) (value : String → String) : String :=
  jsJoin '\n' (names.map (fun n =>
    if n = "(request-target)" then "(request-target): " ++ jsToLower method ++ " " ++ path
    else jsToLower n ++ ": " ++ value n))

/-- Wire-format friendliness of one Signature-parameter value: parsing
splits pairs on `,` and each pair on `=`, so values are recovered exactly
when they contain neither character. -/
abbrev goodVal (s : String) : Prop := ∀ c ∈ s.data, c ≠ ',' ∧ c ≠ '='

/-- Header objects whose keys are already lowercase, so that the JS object
access used by the signer and the case-insensitive `req.get` used by the
verifier agree. -/
abbrev canonKeys (o : List (String × String)) : Prop := ∀ p ∈ o, jsToLower p.1 = p.1

/-! ## Helper lemmas: strings, JS split, trim, quotes -/

/-- Concatenation of strings concatenates the underlying character lists. -/
theorem data_append (s t : String) : (s ++ t).data = s.data ++ t.data := by
  cases s; cases t; rfl

/-- Rebuilding a string from its characters is the identity. -/
theorem mk_data_eta (s : String) : String.mk s.data = s := by cases s; rfl

/-- A string with a first character is not empty. -/
theorem mk_cons_ne_empty (c : Char) (l : List Char) : String.mk (c :: l) ≠ "" := by
  intro h
  exact List.noConfusion (congrArg String.data h)

/-- `splitCharAux` never returns the empty list of pieces. -/
theorem splitCharAux_ne_nil (sep : Char) (l : List Char) : splitCharAux sep l ≠ [] := by
  cases l with
  | nil => simp [splitCharAux]
  | cons c rest =>
    simp only [splitCharAux]
    cases splitCharAux sep rest with
    | nil => simp
    | cons g gs =>
      by_cases h : c = sep <;> simp [h]

/-- A nonempty list is its head consed on its tail. -/
theorem cons_headI_tail {α : Type} [Inhabited α] (xs : List α) (h : xs ≠ []) :
    xs.headI :: xs.tail = xs := by
  cases xs with
  | nil => exact absurd rfl h
  | cons a l => rfl

/-- Unfolding `splitCharAux` on a cons cell. -/
theorem splitCharAux_cons (sep c : Char) (l : List Char) :
    splitCharAux sep (c :: l) =
      if c = sep then [] :: splitCharAux sep l
      else (c :: (splitCharAux sep l).headI) :: (splitCharAux sep l).tail := by
  simp only [splitCharAux]
  cases hs : splitCharAux sep l with
  | nil => exact absurd hs (splitCharAux_ne_nil sep l)
  | cons g gs =>
    by_cases h : c = sep <;> simp [h]

/-- Splitting a separator-free list yields that single piece. -/
theorem splitCharAux_not_mem (sep : Char) (l : List Char) (h : sep ∉ l) :
    splitCharAux sep l = [l] := by
  induction l with
  | nil => rfl
  | cons c rest ih =>
    have hc : c ≠ sep := fun e => h (e ▸ List.mem_cons_self c rest)
    have hr : sep ∉ rest := fun m => h (List.mem_cons_of_mem c m)
    rw [splitCharAux_cons, if_neg hc, ih hr]
    rfl

/-- Splitting at an explicit separator after a separator-free chunk peels
off that chunk as the first piece. -/
theorem splitCharAux_chunk (sep : Char) (l1 l2 : List Char) (h : sep ∉ l1) :
    splitCharAux sep (l1 ++ sep :: l2) = l1 :: splitCharAux sep l2 := by
  induction l1 with
  | nil =>
    simpa using splitCharAux_cons sep sep l2
  | cons c rest ih =>
    have hc : c ≠ sep := fun e => h (e ▸ List.mem_cons_self c rest)
    have hr : sep ∉ rest := fun m => h (List.mem_cons_of_mem c m)
    rw [List.cons_append, splitCharAux_cons, if_neg hc, ih hr]
    simp

/-- Characters surviving `dropWhile` when the head is kept. -/
theorem dropWhile_cons_false {p : Char → Bool} (c : Char) (l : List Char) (h : p c = false) :
    List.dropWhile p (c :: l) = c :: l := by
  simp [List.dropWhile, h]

/-- `jsTrim` keeps a list that starts with `"` and ends in a non-whitespace
character (covers every quoted parameter value). -/
theorem jsTrim_quoted (l : List Char) (c : Char) (hc : jsIsWs c = false) :
    jsTrim ('"' :: (l ++ [c])) = '"' :: (l ++ [c]) := by
  have h1 : jsIsWs '"' = false := by decide
  unfold jsTrim
  rw [dropWhile_cons_false _ _ h1]
  have h2 : ('"' :: (l ++ [c])).reverse = c :: (l.reverse ++ ['"']) := by simp
  rw [h2, dropWhile_cons_false _ _ hc]
  simp

/-- Stripping the quotes of a fully quoted value recovers the value. -/
theorem jsStripQuotes_quoted (l : List Char) :
    jsStripQuotes ('"' :: (l ++ ['"'])) = l := by
  unfold jsStripQuotes stripLeadQuote stripTrailQuote
  simp

/-- Stripping quotes from a value with only a leading quote whose body does
not end in a quote drops just the leading quote. -/
theorem jsStripQuotes_lead (l : List Char) (c : Char) (hc : c ≠ '"') :
    jsStripQuotes ('"' :: (l ++ [c])) = l ++ [c] := by
  unfold jsStripQuotes stripLeadQuote stripTrailQuote
  simp [hc]

/-! ## Parsing the wire-format header -/

/-- A value satisfying `goodVal` contains no comma. -/
theorem goodVal_no_comma {v : String} (hv : goodVal v) : ',' ∉ v.data :=
  fun m => (hv _ m).1 rfl

/-- A value satisfying `goodVal` contains no equals sign. -/
theorem goodVal_no_eq {v : String} (hv : goodVal v) : '=' ∉ v.data :=
  fun m => (hv _ m).2 rfl

/-- Processing one fully quoted `key="value"` pair stores the value
verbatim under the key. -/
theorem parsePair_quoted (acc : SigParams) (key v : String)
    (hk1 : '=' ∉ key.data) (hktrim : jsTrim key.data = key.data) (hk0 : key ≠ "")
    (hv : '=' ∉ v.data) :
    parsePair acc ⟨key.data ++ '=' :: ('"' :: (v.data ++ ['"']))⟩ = jsObjSet acc key v := by
  have hv2 : '=' ∉ '"' :: (v.data ++ ['"']) := by
    intro m
    rcases List.mem_cons.1 m with h | h
    · exact absurd h (by decide)
    · rcases List.mem_append.1 h with h | h
      · exact hv h
      · revert h; decide
  unfold parsePair jsSplit
  rw [show (String.mk (key.data ++ '=' :: ('"' :: (v.data ++ ['"'])))).data =
        key.data ++ '=' :: ('"' :: (v.data ++ ['"'])) from rfl]
  rw [splitCharAux_chunk '=' _ _ hk1, splitCharAux_not_mem '=' _ hv2]
  simp only [List.map_cons, List.map_nil, List.head?_cons, mk_data_eta]
  rw [if_pos]
  · rw [show jsTrim ('"' :: (v.data ++ ['"'])) = '"' :: (v.data ++ ['"']) from
        jsTrim_quoted v.data '"' (by decide)]
    rw [jsStripQuotes_quoted, hktrim, mk_data_eta, mk_data_eta]
  · simp only [Bool.and_eq_true]
    exact ⟨bne_iff_ne.mpr hk0, bne_iff_ne.mpr (mk_cons_ne_empty _ _)⟩

/-- Processing a `key="value<pad>"` pair whose base64 value carries `=`
padding: the split on `=` truncates the value at the padding, so the
stored value is the base64 body without its padding (and without the
closing quote). -/
theorem parsePair_padded (acc : SigParams) (key v : String) (pad : List Char)
    (hk1 : '=' ∉ key.data) (hktrim : jsTrim key.data = key.data) (hk0 : key ≠ "")
    (hpad : pad = ['='] ∨ pad = ['=', '='])
    (hv : ∀ c ∈ v.data, c ≠ '=' ∧ c ≠ '"' ∧ jsIsWs c = false) (hv0 : v.data ≠ []) :
    parsePair acc ⟨key.data ++ '=' :: ('"' :: (v.data ++ pad ++ ['"']))⟩ = jsObjSet acc key v := by
  have hv2 : '=' ∉ '"' :: v.data := by
    intro m
    rcases List.mem_cons.1 m with h | h
    · exact absurd h (by decide)
    · exact (hv _ h).1 rfl
  obtain ⟨l, c, hlc⟩ := (List.eq_nil_or_concat v.data).resolve_left hv0
  rw [List.concat_eq_append] at hlc
  have hcv : c ∈ v.data := hlc ▸ List.mem_append_right l (List.mem_singleton.mpr rfl)
  have splitv : splitCharAux '=' ('"' :: (v.data ++ pad ++ ['"'])) =
      ('"' :: v.data) :: (if pad = ['='] then [['"']] else [[], ['"']]) := by
    rcases hpad with h | h
    · subst h
      rw [show '"' :: (v.data ++ ['='] ++ ['"']) = ('"' :: v.data) ++ '=' :: ['"'] by simp]
      rw [splitCharAux_chunk '=' _ _ hv2, splitCharAux_not_mem '=' _ (by decide)]
      simp
    · subst h
      rw [show '"' :: (v.data ++ ['=', '='] ++ ['"']) =
            ('"' :: v.data) ++ '=' :: ([] ++ '=' :: ['"']) by simp]
      rw [splitCharAux_chunk '=' _ _ hv2,
          splitCharAux_chunk '=' ([] : List Char) _ (by simp),
          splitCharAux_not_mem '=' _ (by decide)]
      simp
  unfold parsePair jsSplit
  rw [show (String.mk (key.data ++ '=' :: ('"' :: (v.data ++ pad ++ ['"'])))).data =
        key.data ++ '=' :: ('"' :: (v.data ++ pad ++ ['"'])) from rfl]
  rw [splitCharAux_chunk '=' _ _ hk1, splitv]
  rcases hpad with h | h <;> (
    simp only [h, List.map_cons, List.head?_cons, mk_data_eta, if_pos, if_neg]
    rw [if_pos]
    · rw [show jsTrim ('"' :: v.data) = '"' :: v.data by
          rw [hlc]; exact jsTrim_quoted l c (hv c hcv).2.2]
      rw [show jsStripQuotes ('"' :: v.data) = v.data by
          rw [hlc]; exact jsStripQuotes_lead l c (hv c hcv).2.1]
      rw [hktrim, mk_data_eta, mk_data_eta]
    · simp only [Bool.and_eq_true]
      exact ⟨bne_iff_ne.mpr hk0, bne_iff_ne.mpr (mk_cons_ne_empty _ _)⟩)

/-- The character-list decomposition of the wire-format header at its
three separating commas. -/
theorem mkSigHeaderRaw_data (kid alg hnames sv : String) :
    (mkSigHeaderRaw kid alg hnames sv).data =
      ("keyId=\"".data ++ (kid.data ++ ['"'])) ++ ',' ::
        (("algorithm=\"".data ++ (alg.data ++ ['"'])) ++ ',' ::
          (("headers=\"".data ++ (hnames.data ++ ['"'])) ++ ',' ::
            ("signature=\"".data ++ (sv.data ++ ['"'])))) := by
  simp [mkSigHeaderRaw, data_append, List.append_assoc]

/-- Setting a key absent from the object appends the binding. -/
theorem jsObjSet_append_new (o : List (String × String)) (k v : String)
    (h : o.any (fun p => p.1 == k) = false) : jsObjSet o k v = o ++ [(k, v)] := by
  simp [jsObjSet, h]

/-- Decoding a well-formed wire-format header whose four values contain
neither `,` nor `=` recovers exactly the four parameters. -/
theorem parse_mkSigHeaderRaw (kid alg hnames sv : String)
    (hk : goodVal kid) (ha : goodVal alg) (hh : goodVal hnames) (hs : goodVal sv) :
    parseSignatureHeader (some (mkSigHeaderRaw kid alg hnames sv)) =
      some [("keyId", kid), ("algorithm", alg), ("headers", hnames), ("signature", sv)] := by
  have h1 : ',' ∉ "keyId=\"".data ++ (kid.data ++ ['"']) := by
    intro m
    rcases List.mem_append.1 m with h | h
    · revert h; decide
    · rcases List.mem_append.1 h with h | h
      · exact (hk _ h).1 rfl
      · revert h; decide
  have h2 : ',' ∉ "algorithm=\"".data ++ (alg.data ++ ['"']) := by
    intro m
    rcases List.mem_append.1 m with h | h
    · revert h; decide
    · rcases List.mem_append.1 h with h | h
      · exact (ha _ h).1 rfl
      · revert h; decide
  have h3 : ',' ∉ "headers=\"".data ++ (hnames.data ++ ['"']) := by
    intro m
    rcases List.mem_append.1 m with h | h
    · revert h; decide
    · rcases List.mem_append.1 h with h | h
      · exact (hh _ h).1 rfl
      · revert h; decide
  have h4 : ',' ∉ "signature=\"".data ++ (sv.data ++ ['"']) := by
    intro m
    rcases List.mem_append.1 m with h | h
    · revert h; decide
    · rcases List.mem_append.1 h with h | h
      · exact (hs _ h).1 rfl
      · revert h; decide
  have hne : mkSigHeaderRaw kid alg hnames sv ≠ "" := by
    intro h
    have h' := congrArg String.data h
    rw [mkSigHeaderRaw_data] at h'
    simp at h'
  have hsw : jsStartsWith "Signature ".data (mkSigHeaderRaw kid alg hnames sv) = false := by
    unfold jsStartsWith
    rw [mkSigHeaderRaw_data]
    rw [show ("Signature " : String).data = 'S' :: "ignature ".data from rfl]
    rw [show "keyId=\"".data ++ (kid.data ++ ['"']) = 'k' :: ("eyId=\"".data ++ (kid.data ++ ['"'])) from rfl]
    simp [List.isPrefixOf, show ('S' == 'k') = false from rfl]
  have hsplit : jsSplit ',' (mkSigHeaderRaw kid alg hnames sv) =
      [⟨"keyId=\"".data ++ (kid.data ++ ['"'])⟩, ⟨"algorithm=\"".data ++ (alg.data ++ ['"'])⟩,
       ⟨"headers=\"".data ++ (hnames.data ++ ['"'])⟩, ⟨"signature=\"".data ++ (sv.data ++ ['"'])⟩] := by
    unfold jsSplit
    rw [mkSigHeaderRaw_data, splitCharAux_chunk ',' _ _ h1, splitCharAux_chunk ',' _ _ h2,
        splitCharAux_chunk ',' _ _ h3, splitCharAux_not_mem ',' _ h4]
    rfl
  have e1 : "keyId=\"".data ++ (kid.data ++ ['"']) =
      "keyId".data ++ '=' :: ('"' :: (kid.data ++ ['"'])) := by simp
  have e2 : "algorithm=\"".data ++ (alg.data ++ ['"']) =
      "algorithm".data ++ '=' :: ('"' :: (alg.data ++ ['"'])) := by simp
  have e3 : "headers=\"".data ++ (hnames.data ++ ['"']) =
      "headers".data ++ '=' :: ('"' :: (hnames.data ++ ['"'])) := by simp
  have e4 : "signature=\"".data ++ (sv.data ++ ['"']) =
      "signature".data ++ '=' :: ('"' :: (sv.data ++ ['"'])) := by simp
  rw [show parseSignatureHeader (some (mkSigHeaderRaw kid alg hnames sv)) =
        (if mkSigHeaderRaw kid alg hnames sv = "" then none
         else some ((jsSplit ','
             (if jsStartsWith "Signature ".data (mkSigHeaderRaw kid alg hnames sv) = true
              then jsDropChars 10 (mkSigHeaderRaw kid alg hnames sv)
              else mkSigHeaderRaw kid alg hnames sv)).foldl parsePair [])) from rfl]
  rw [if_neg hne, if_neg (by rw [hsw]; exact Bool.false_ne_true)]
  rw [hsplit]
  simp only [List.foldl_cons, List.foldl_nil]
  rw [e1, parsePair_quoted [] "keyId" kid (by decide) (by decide) (by decide) (goodVal_no_eq hk),
      jsObjSet_append_new [] _ _ (by simp)]
  rw [e2, parsePair_quoted _ "algorithm" alg (by decide) (by decide) (by decide) (goodVal_no_eq ha),
      jsObjSet_append_new _ _ _ (by simp)]
  rw [e3, parsePair_quoted _ "headers" hnames (by decide) (by decide) (by decide) (goodVal_no_eq hh),
      jsObjSet_append_new _ _ _ (by simp)]
  rw [e4, parsePair_quoted _ "signature" sv (by decide) (by decide) (by decide) (goodVal_no_eq hs),
      jsObjSet_append_new _ _ _ (by simp)]
  simp

/-- Decoding a wire-format header whose signature value carries base64 `=`
padding: the parameters come back verbatim except the signature, which
loses its padding. -/
theorem parse_mkSigHeaderRaw_padded (kid alg hnames v : String) (pad : List Char)
    (hk : goodVal kid) (ha : goodVal alg) (hh : goodVal hnames)
    (hpad : pad = ['='] ∨ pad = ['=', '='])
    (hv : ∀ c ∈ v.data, c ≠ ',' ∧ c ≠ '=' ∧ c ≠ '"' ∧ jsIsWs c = false) (hv0 : v.data ≠ []) :
    parseSignatureHeader (some (mkSigHeaderRaw kid alg hnames (v ++ ⟨pad⟩))) =
      some [("keyId", kid), ("algorithm", alg), ("headers", hnames), ("signature", v)] := by
  have hvdata : (v ++ (⟨pad⟩ : String)).data = v.data ++ pad := by
    rw [data_append]
  have hpadc : ',' ∉ pad := by
    rcases hpad with h | h <;> (subst h; decide)
  have h1 : ',' ∉ "keyId=\"".data ++ (kid.data ++ ['"']) := by
    intro m
    rcases List.mem_append.1 m with h | h
    · revert h; decide
    · rcases List.mem_append.1 h with h | h
      · exact (hk _ h).1 rfl
      · revert h; decide
  have h2 : ',' ∉ "algorithm=\"".data ++ (alg.data ++ ['"']) := by
    intro m
    rcases List.mem_append.1 m with h | h
    · revert h; decide
    · rcases List.mem_append.1 h with h | h
      · exact (ha _ h).1 rfl
      · revert h; decide
  have h3 : ',' ∉ "headers=\"".data ++ (hnames.data ++ ['"']) := by
    intro m
    rcases List.mem_append.1 m with h | h
    · revert h; decide
    · rcases List.mem_append.1 h with h | h
      · exact (hh _ h).1 rfl
      · revert h; decide
  have h4 : ',' ∉ "signature=\"".data ++ ((v.data ++ pad) ++ ['"']) := by
    intro m
    rcases List.mem_append.1 m with h | h
    · revert h; decide
    · rcases List.mem_append.1 h with h | h
      · rcases List.mem_append.1 h with h | h
        · exact (hv _ h).1 rfl
        · exact hpadc h
      · revert h; decide
  have hne : mkSigHeaderRaw kid alg hnames (v ++ ⟨pad⟩) ≠ "" := by
    intro h
    have h' := congrArg String.data h
    rw [mkSigHeaderRaw_data] at h'
    simp at h'
  have hsw : jsStartsWith "Signature ".data (mkSigHeaderRaw kid alg hnames (v ++ ⟨pad⟩)) = false := by
    unfold jsStartsWith
    rw [mkSigHeaderRaw_data]
    rw [show ("Signature " : String).data = 'S' :: "ignature ".data from rfl]
    rw [show "keyId=\"".data ++ (kid.data ++ ['"']) = 'k' :: ("eyId=\"".data ++ (kid.data ++ ['"'])) from rfl]
    simp [List.isPrefixOf, show ('S' == 'k') = false from rfl]
  have hsplit : jsSplit ',' (mkSigHeaderRaw kid alg hnames (v ++ ⟨pad⟩)) =
      [⟨"keyId=\"".data ++ (kid.data ++ ['"'])⟩, ⟨"algorithm=\"".data ++ (alg.data ++ ['"'])⟩,
       ⟨"headers=\"".data ++ (hnames.data ++ ['"'])⟩,
       ⟨"signature=\"".data ++ ((v.data ++ pad) ++ ['"'])⟩] := by
    unfold jsSplit
    rw [mkSigHeaderRaw_data, hvdata, splitCharAux_chunk ',' _ _ h1, splitCharAux_chunk ',' _ _ h2,
        splitCharAux_chunk ',' _ _ h3, splitCharAux_not_mem ',' _ h4]
    rfl
  have e1 : "keyId=\"".data ++ (kid.data ++ ['"']) =
      "keyId".data ++ '=' :: ('"' :: (kid.data ++ ['"'])) := by simp
  have e2 : "algorithm=\"".data ++ (alg.data ++ ['"']) =
      "algorithm".data ++ '=' :: ('"' :: (alg.data ++ ['"'])) := by simp
  have e3 : "headers=\"".data ++ (hnames.data ++ ['"']) =
      "headers".data ++ '=' :: ('"' :: (hnames.data ++ ['"'])) := by simp
  have e4 : "signature=\"".data ++ ((v.data ++ pad) ++ ['"']) =
      "signature".data ++ '=' :: ('"' :: (v.data ++ pad ++ ['"'])) := by simp
  rw [show parseSignatureHeader (some (mkSigHeaderRaw kid alg hnames (v ++ (⟨pad⟩ : String)))) =
        (if mkSigHeaderRaw kid alg hnames (v ++ (⟨pad⟩ : String)) = "" then none
         else some ((jsSplit ','
             (if jsStartsWith "Signature ".data (mkSigHeaderRaw kid alg hnames (v ++ (⟨pad⟩ : String))) = true
              then jsDropChars 10 (mkSigHeaderRaw kid alg hnames (v ++ (⟨pad⟩ : String)))
              else mkSigHeaderRaw kid alg hnames (v ++ (⟨pad⟩ : String)))).foldl parsePair [])) from rfl]
  rw [if_neg hne, if_neg (by rw [hsw]; exact Bool.false_ne_true)]
  rw [hsplit]
  simp only [List.foldl_cons, List.foldl_nil]
  rw [e1, parsePair_quoted [] "keyId" kid (by decide) (by decide) (by decide) (goodVal_no_eq hk),
      jsObjSet_append_new [] _ _ (by simp)]
  rw [e2, parsePair_quoted _ "algorithm" alg (by decide) (by decide) (by decide) (goodVal_no_eq ha),
      jsObjSet_append_new _ _ _ (by simp)]
  rw [e3, parsePair_quoted _ "headers" hnames (by decide) (by decide) (by decide) (goodVal_no_eq hh),
      jsObjSet_append_new _ _ _ (by simp)]
  rw [e4, parsePair_padded _ "signature" v pad (by decide) (by decide) (by decide) hpad
        (fun c hc => ⟨(hv c hc).2.1, (hv c hc).2.2.1, (hv c hc).2.2.2⟩) hv0,
      jsObjSet_append_new _ _ _ (by simp)]
  simp

/-! ## base64 round trip -/

/-- Decoding a base64 digit inverts encoding for 6-bit values. -/
theorem b64Val_b64Char : ∀ n, n < 64 → b64Val (b64Char n) = n := by decide

/-- Each base64 digit lies in the alphabet and is not a separator, quote
or whitespace character. -/
theorem b64Char_good : ∀ n, n < 64 → isB64Char (b64Char n) = true ∧ b64Char n ≠ ',' ∧
    b64Char n ≠ '=' ∧ b64Char n ≠ '"' ∧ jsIsWs (b64Char n) = false := by decide

/-- Every character produced by `b64EncodeChars` on bytes is a base64 digit. -/
theorem mem_b64EncodeChars : ∀ (bs : List Nat), (∀ b ∈ bs, b < 256) →
    ∀ c ∈ b64EncodeChars bs, ∃ n, n < 64 ∧ c = b64Char n
  | [], _, c, hc => by simp [b64EncodeChars] at hc
  | [b1], h, c, hc => by
    have hb1 : b1 < 256 := h b1 (by simp)
    simp only [b64EncodeChars, List.mem_cons, List.mem_singleton, List.not_mem_nil, or_false] at hc
    rcases hc with rfl | rfl
    · exact ⟨b1 / 4, by omega, rfl⟩
    · exact ⟨b1 % 4 * 16, by omega, rfl⟩
  | [b1, b2], h, c, hc => by
    have hb1 : b1 < 256 := h b1 (by simp)
    have hb2 : b2 < 256 := h b2 (by simp)
    simp only [b64EncodeChars, List.mem_cons, List.mem_singleton, List.not_mem_nil, or_false] at hc
    rcases hc with rfl | rfl | rfl
    · exact ⟨b1 / 4, by omega, rfl⟩
    · exact ⟨b1 % 4 * 16 + b2 / 16, by omega, rfl⟩
    · exact ⟨b2 % 16 * 4, by omega, rfl⟩
  | b1 :: b2 :: b3 :: rest, h, c, hc => by
    have hb1 : b1 < 256 := h b1 (by simp)
    have hb2 : b2 < 256 := h b2 (by simp)
    have hb3 : b3 < 256 := h b3 (by simp)
    have hrest : ∀ b ∈ rest, b < 256 := fun b hb => h b (by simp [hb])
    simp only [b64EncodeChars, List.mem_cons] at hc
    rcases hc with rfl | rfl | rfl | rfl | hc
    · exact ⟨b1 / 4, by omega, rfl⟩
    · exact ⟨b1 % 4 * 16 + b2 / 16, by omega, rfl⟩
    · exact ⟨b2 % 16 * 4 + b3 / 64, by omega, rfl⟩
    · exact ⟨b3 % 64, by omega, rfl⟩
    · exact mem_b64EncodeChars rest hrest c hc

/-- Decoding the digit stream of an encoding recovers the bytes. -/
theorem b64DecodeGroups_encodeChars : ∀ (bs : List Nat), (∀ b ∈ bs, b < 256) →
    b64DecodeGroups (b64EncodeChars bs) = bs
  | [], _ => rfl
  | [b1], h => by
    have hb1 : b1 < 256 := h b1 (by simp)
    simp only [b64EncodeChars, b64DecodeGroups]
    rw [b64Val_b64Char _ (by omega), b64Val_b64Char _ (by omega)]
    congr 1
    omega
  | [b1, b2], h => by
    have hb1 : b1 < 256 := h b1 (by simp)
    have hb2 : b2 < 256 := h b2 (by simp)
    simp only [b64EncodeChars, b64DecodeGroups]
    rw [b64Val_b64Char _ (by omega), b64Val_b64Char _ (by omega), b64Val_b64Char _ (by omega)]
    congr 1
    · omega
    · congr 1
      omega
  | b1 :: b2 :: b3 :: rest, h => by
    have hb1 : b1 < 256 := h b1 (by simp)
    have hb2 : b2 < 256 := h b2 (by simp)
    have hb3 : b3 < 256 := h b3 (by simp)
    have hrest : ∀ b ∈ rest, b < 256 := fun b hb => h b (by simp [hb])
    simp only [b64EncodeChars, b64DecodeGroups]
    rw [b64Val_b64Char _ (by omega), b64Val_b64Char _ (by omega), b64Val_b64Char _ (by omega),
        b64Val_b64Char _ (by omega), b64DecodeGroups_encodeChars rest hrest]
    congr 1
    · omega
    · congr 1
      · omega
      · congr 1
        omega

/-- Lenient decoding of the unpadded digit string recovers the bytes. -/
theorem b64Decode_encodeChars (bs : List Nat) (h : ∀ b ∈ bs, b < 256) :
    b64Decode ⟨b64EncodeChars bs⟩ = bs := by
  unfold b64Decode
  rw [show (String.mk (b64EncodeChars bs)).data = b64EncodeChars bs from rfl]
  rw [List.filter_eq_self.mpr (fun c hc => by
    obtain ⟨n, hn, rfl⟩ := mem_b64EncodeChars bs h c hc
    exact (b64Char_good n hn).1)]
  exact b64DecodeGroups_encodeChars bs h

/-- Encoding a nonempty byte list yields at least one digit. -/
theorem b64EncodeChars_ne_nil : ∀ (bs : List Nat), bs ≠ [] → b64EncodeChars bs ≠ []
  | [], h => absurd rfl h
  | [_], _ => by simp [b64EncodeChars]
  | [_, _], _ => by simp [b64EncodeChars]
  | _ :: _ :: _ :: _, _ => by simp [b64EncodeChars]

/-- The characters of an encoding are never separators, quotes or spaces. -/
theorem b64EncodeChars_good (bs : List Nat) (h : ∀ b ∈ bs, b < 256) :
    ∀ c ∈ b64EncodeChars bs, c ≠ ',' ∧ c ≠ '=' ∧ c ≠ '"' ∧ jsIsWs c = false := by
  intro c hc
  obtain ⟨n, hn, rfl⟩ := mem_b64EncodeChars bs h c hc
  obtain ⟨_, h2, h3, h4, h5⟩ := b64Char_good n hn
  exact ⟨h2, h3, h4, h5⟩

/-- Decoding the wire-format header whose signature value is the base64
encoding of a byte list: every parameter is recovered verbatim except the
signature, which comes back as the digits without the `=` padding. -/
theorem parse_mk_b64 (kid alg hnames : String) (bytes : List Nat)
    (hk : goodVal kid) (ha : goodVal alg) (hh : goodVal hnames)
    (hb : bytes ≠ []) (hlt : ∀ b ∈ bytes, b < 256) :
    parseSignatureHeader (some (mkSigHeaderRaw kid alg hnames (b64Encode bytes))) =
      some [("keyId", kid), ("algorithm", alg), ("headers", hnames),
            ("signature", ⟨b64EncodeChars bytes⟩)] := by
  have hgood : ∀ c ∈ (String.mk (b64EncodeChars bytes)).data,
      c ≠ ',' ∧ c ≠ '=' ∧ c ≠ '"' ∧ jsIsWs c = false := b64EncodeChars_good bytes hlt
  have hnn : (String.mk (b64EncodeChars bytes)).data ≠ [] := b64EncodeChars_ne_nil bytes hb
  unfold b64Encode b64PadStr
  have h3 : bytes.length % 3 = 0 ∨ bytes.length % 3 = 1 ∨ bytes.length % 3 = 2 := by omega
  rcases h3 with hm | hm | hm <;> rw [hm]
  · rw [String.append_empty]
    exact parse_mkSigHeaderRaw kid alg hnames _ hk ha hh
      (fun c hc => ⟨(hgood c hc).1, (hgood c hc).2.1⟩)
  · rw [show ("==" : String) = (⟨['=', '=']⟩ : String) from rfl]
    exact parse_mkSigHeaderRaw_padded kid alg hnames _ _ hk ha hh (Or.inr rfl) hgood hnn
  · rw [show ("=" : String) = (⟨['=']⟩ : String) from rfl]
    exact parse_mkSigHeaderRaw_padded kid alg hnames _ _ hk ha hh (Or.inl rfl) hgood hnn

/-! ## Symbolic crypto facts -/

/-- The signature bytes are never empty. -/
theorem rsaSign_ne_nil (priv msg : String) : rsaSign priv msg ≠ [] := by
  simp [rsaSign]

/-- The signature bytes are genuine bytes. -/
theorem rsaSign_lt_256 (priv msg : String) : ∀ b ∈ rsaSign priv msg, b < 256 := by
  intro b hb
  simp only [rsaSign, List.mem_cons, List.mem_map] at hb
  rcases hb with rfl | ⟨c, _, rfl⟩
  · omega
  · exact Nat.mod_lt _ (by omega)

/-- Verification accepts what the matching private key signed. -/
theorem rsaVerify_rsaSign (priv msg : String) :
    rsaVerify (pubOfPriv priv) msg (rsaSign priv msg) = true := by
  have hp : privFromPub (pubOfPriv priv) = priv := by
    unfold privFromPub pubOfPriv
    rw [data_append]
    rw [show ("PUB:" : String).data = ['P', 'U', 'B', ':'] from rfl]
    rw [show (4 : Nat) = (['P', 'U', 'B', ':'] : List Char).length from rfl, List.drop_left]
  simp [rsaVerify, hp]

/-! ## Object and header lookup lemmas -/

/-- A present truthy optional string is exactly a nonempty one. -/
theorem jsTruthy_some_iff (v : String) : jsTruthy (some v) = true ↔ v ≠ "" := by
  simp only [jsTruthy]
  exact bne_iff_ne

/-- Reading the key just overwritten in the in-place branch. -/
theorem jsObjGet_map_set (o : List (String × String)) (k v : String) :
    jsObjGet (o.map (fun p => if p.1 == k then (k, v) else p)) k =
      if o.any (fun p => p.1 == k) then some v else none := by
  induction o with
  | nil => simp [jsObjGet]
  | cons p o ih =>
    unfold jsObjGet at ih ⊢
    rw [List.map_cons, List.any_cons]
    by_cases h : p.1 == k
    · rw [show (if (p.1 == k) = true then (k, v) else p) = (k, v) by rw [if_pos h],
          List.find?_cons_of_pos _ (by simp), h]
      simp
    · rw [show (if (p.1 == k) = true then (k, v) else p) = p by rw [if_neg h],
          List.find?_cons_of_neg _ (by simpa using h),
          show (p.1 == k) = false from Bool.eq_false_iff.mpr h]
      simpa using ih

/-- Reading another key is unaffected by the in-place overwrite. -/
theorem jsObjGet_map_set_ne (o : List (String × String)) (k v k' : String) (h : k' ≠ k) :
    jsObjGet (o.map (fun p => if p.1 == k then (k, v) else p)) k' = jsObjGet o k' := by
  induction o with
  | nil => simp [jsObjGet]
  | cons p o ih =>
    unfold jsObjGet at ih ⊢
    rw [List.map_cons]
    by_cases hpk : p.1 == k
    · have hp1 : p.1 = k := eq_of_beq hpk
      have hkk : (k == k') = false := beq_eq_false_iff_ne.mpr (fun e => h e.symm)
      rw [show (if (p.1 == k) = true then (k, v) else p) = (k, v) by rw [if_pos hpk],
          List.find?_cons_of_neg _ (by simpa using hkk),
          List.find?_cons_of_neg _ (by simp [hp1, hkk])]
      exact ih
    · rw [show (if (p.1 == k) = true then (k, v) else p) = p by rw [if_neg hpk]]
      by_cases hp : p.1 == k'
      · rw [@List.find?_cons_of_pos _ (fun q => q.1 == k') p _ hp,
            @List.find?_cons_of_pos _ (fun q => q.1 == k') p _ hp]
      · rw [@List.find?_cons_of_neg _ (fun q => q.1 == k') p _ (by simpa using hp),
            @List.find?_cons_of_neg _ (fun q => q.1 == k') p _ (by simpa using hp)]
        exact ih

/-- No binding in a key-free object matches that key. -/
theorem jsObjGet_eq_none (o : List (String × String)) (k : String)
    (h : o.any (fun p => p.1 == k) = false) : jsObjGet o k = none := by
  unfold jsObjGet
  rw [List.find?_eq_none.mpr (fun p hp => List.any_eq_false.mp h p hp)]
  rfl

/-- Reading back the key just written. -/
theorem jsObjGet_set_self (o : List (String × String)) (k v : String) :
    jsObjGet (jsObjSet o k v) k = some v := by
  unfold jsObjSet
  by_cases h : o.any (fun p => p.1 == k)
  · rw [if_pos h, jsObjGet_map_set, if_pos h]
  · rw [if_neg h]
    unfold jsObjGet
    rw [List.find?_append, List.find?_eq_none.mpr
      (fun p hp => by simpa using List.any_eq_false.mp (Bool.eq_false_iff.mpr h) p hp)]
    simp [List.find?]

/-- Writing one key does not change reads of another. -/
theorem jsObjGet_set_ne (o : List (String × String)) (k v k' : String) (h : k' ≠ k) :
    jsObjGet (jsObjSet o k v) k' = jsObjGet o k' := by
  unfold jsObjSet
  by_cases ha : o.any (fun p => p.1 == k)
  · rw [if_pos ha, jsObjGet_map_set_ne _ _ _ _ h]
  · rw [if_neg ha]
    unfold jsObjGet
    rw [List.find?_append]
    rw [show List.find? (fun p => p.1 == k') [(k, v)] = none by
      simp [List.find?, beq_eq_false_iff_ne.mpr (fun e => h e.symm)]]
    cases List.find? (fun p => p.1 == k') o <;> rfl

/-- Writing a lowercase key preserves key canonicity. -/
theorem canonKeys_set (o : List (String × String)) (k v : String)
    (ho : canonKeys o) (hk : jsToLower k = k) : canonKeys (jsObjSet o k v) := by
  unfold jsObjSet
  by_cases h : o.any (fun p => p.1 == k)
  · rw [if_pos h]
    intro p hp
    obtain ⟨q, hq, rfl⟩ := List.mem_map.1 hp
    by_cases hqk : q.1 == k
    · simp [hqk, hk]
    · simpa [hqk] using ho q hq
  · rw [if_neg h]
    intro p hp
    rcases List.mem_append.1 hp with hp | hp
    · exact ho p hp
    · rw [List.mem_singleton.1 hp]
      exact hk

/-- Under canonical keys, the case-insensitive `req.get` agrees with plain
object access for a lowercase name. -/
theorem reqGet_eq_jsObjGet (hs : List (String × String)) (m p : String) (n : String)
    (hc : canonKeys hs) (hn : jsToLower n = n) :
    reqGet ⟨m, p, hs⟩ n = jsObjGet hs n := by
  unfold reqGet jsObjGet
  congr 1
  induction hs with
  | nil => rfl
  | cons q l ih =>
    have hq : jsToLower q.1 = q.1 := hc q (by simp)
    have hrest : canonKeys l := fun r hr => hc r (by simp [hr])
    by_cases hmatch : q.1 == n
    · rw [List.find?_cons_of_pos _ (by simp [hq, hn, hmatch]),
          List.find?_cons_of_pos _ (by simp [hmatch])]
    · rw [List.find?_cons_of_neg _ (by simp [hq, hn, hmatch]),
          List.find?_cons_of_neg _ (by simp [hmatch])]
      exact ih hrest

/-! ## Delivery-engine claims (C4, C5) -/

/-- Claim C4, counterexample: `deliverToInbox` reports `success: true` for a
401 response (the `validateStatus` callback admits 401), so success is not
equivalent to a 2xx status. -/
theorem C4_counterexample :
    (deliverToInbox (.response 401)).success = true ∧
    ¬(200 ≤ (401 : Nat) ∧ (401 : Nat) < 300) := by
  constructor
  · rfl
  · omega

/-- Claim C4, amended: `deliverToInbox` reports success exactly for a
response whose status is 2xx or 401; a 403 (and any other rejected status,
and any network error) is a failure, and in every case exactly one HTTP
attempt is made, so nothing is retried. -/
theorem C4_success_iff :
    (∀ st : Nat, (deliverToInbox (.response st)).success = true ↔
      ((200 ≤ st ∧ st < 300) ∨ st = 401)) ∧
    (deliverToInbox (.response 403)).success = false ∧
    (∀ m, (deliverToInbox (.networkError m)).success = false) ∧
    (∀ env : Nat → HttpOutcome, (deliverToInboxRun env).2 = 1) := by
  refine ⟨?_, rfl, fun m => rfl, fun env => rfl⟩
  intro st
  by_cases h : (200 ≤ st ∧ st < 300) ∨ st = 401
  · have hb : deliverValidateStatus st = true := by
      unfold deliverValidateStatus
      rcases h with h12 | rfl
      · simp [h12.1, h12.2]
      · simp
    simp [deliverToInbox, hb, h]
  · have hb : deliverValidateStatus st = false := by
      apply Bool.eq_false_iff.mpr
      intro hb
      apply h
      unfold deliverValidateStatus at hb
      simp only [Bool.or_eq_true, Bool.and_eq_true, decide_eq_true_eq, beq_iff_eq] at hb
      exact hb
    simp [deliverToInbox, hb, h]

/-- Witness for the amended C4 at concrete statuses. -/
theorem C4_witness :
    (deliverToInbox (.response 204)).success = true ∧
    (deliverToInbox (.response 500)).success ≠ true :=
  ⟨(C4_success_iff.1 204).mpr (Or.inl (by omega)),
   fun h => by
    rcases (C4_success_iff.1 500).mp h with h' | h' <;> omega⟩

/-- Claim C5, counterexample: on a network error the code performs exactly
one HTTP attempt — there is no retry loop at all, so no bounded retry with
backoff happens before the failure is returned. -/
theorem C5_counterexample :
    (deliverToInboxRun (fun _ => .networkError "connect ECONNREFUSED")).2 = 1 ∧
    ¬2 ≤ (deliverToInboxRun (fun _ => .networkError "connect ECONNREFUSED")).2 ∧
    (deliverToInboxRun (fun _ => .networkError "connect ECONNREFUSED")).1.success = false := by
  refine ⟨rfl, ?_, rfl⟩
  intro h
  simp [deliverToInboxRun] at h

/-- Claim C5, amended: `deliverToInbox` performs exactly one HTTP attempt;
a 5xx response or a network error yields `success: false` with the status
or error message reported in the returned result (never silently dropped),
and no retry is attempted. -/
theorem C5_single_attempt (env : Nat → HttpOutcome) :
    (deliverToInboxRun env).2 = 1 ∧
    (∀ st, env 0 = .response st → 500 ≤ st →
      (deliverToInboxRun env).1.success = false ∧ (deliverToInboxRun env).1.status = some st) ∧
    (∀ m, env 0 = .networkError m →
      (deliverToInboxRun env).1.success = false ∧ (deliverToInboxRun env).1.error = some m) := by
  refine ⟨rfl, ?_, ?_⟩
  · intro st h h5
    have hb : deliverValidateStatus st = false := by
      apply Bool.eq_false_iff.mpr
      intro hb
      unfold deliverValidateStatus at hb
      simp only [Bool.or_eq_true, Bool.and_eq_true, decide_eq_true_eq, beq_iff_eq] at hb
      omega
    simp [deliverToInboxRun, deliverToInbox, h, hb]
  · intro m h
    simp [deliverToInboxRun, deliverToInbox, h]

/-- Witness for the amended C5 at the concrete always-500 environment. -/
theorem C5_witness :
    (deliverToInboxRun (fun _ => .response 500)).1.success = false ∧
    (deliverToInboxRun (fun _ => .response 500)).2 = 1 :=
  ⟨((C5_single_attempt (fun _ => .response 500)).2.1 500 rfl (by omega)).1,
   (C5_single_attempt (fun _ => .response 500)).1⟩

/-! ## Inbox-processor claims (C6, C7, C8) -/

/-- Updating statuses leaves rows that do not match the pair untouched. -/
theorem map_update_no_match (l : List FollowRow) (f g st : String)
    (h : ∀ r ∈ l, followMatches f g r = false) :
    l.map (fun r => if followMatches f g r then { r with status := st } else r) = l := by
  induction l with
  | nil => rfl
  | cons r l ih =>
    rw [List.map_cons, if_neg (by simp [h r (by simp)]), ih (fun x hx => h x (by simp [hx]))]

/-- The status update does not change which pair a row belongs to. -/
theorem followMatches_update (f g st f' g' : String) (r : FollowRow) :
    followMatches f' g' (if followMatches f g r then { r with status := st } else r) =
      followMatches f' g' r := by
  by_cases h : followMatches f g r
  · rw [if_pos h]
    simp [followMatches]
  · rw [if_neg h]

/-- A pointwise pair-preserving rewrite keeps the number of matching rows. -/
theorem length_filter_map_pres (l : List FollowRow) (u : FollowRow → FollowRow)
    (p : FollowRow → Bool) (h : ∀ r, p (u r) = p r) :
    ((l.map u).filter p).length = (l.filter p).length := by
  induction l with
  | nil => rfl
  | cons r l ih =>
    rw [List.map_cons]
    by_cases hr : p r
    · rw [List.filter_cons_of_pos (by rw [h r]; exact hr), List.filter_cons_of_pos hr]
      simpa using ih
    · rw [List.filter_cons_of_neg (by rw [h r]; exact hr), List.filter_cons_of_neg hr]
      exact ih

/-- Claim C6: starting with no relationship row for the pair, `Follow` then
`Accept` leaves exactly one row for the pair, with status `ACCEPTED`, and a
subsequent `Undo` of the Follow leaves zero rows for the pair. -/
theorem C6_follow_accept_undo (db : DB) (f g : String)
    (h : db.follows.filter (followMatches f g) = []) :
    (handleAccept (handleFollow db ⟨f, g⟩) ⟨"Follow", f, g⟩).follows.filter (followMatches f g) =
      [⟨f, g, "ACCEPTED"⟩] ∧
    (handleUndo (handleAccept (handleFollow db ⟨f, g⟩) ⟨"Follow", f, g⟩)
        ⟨"Follow", f, g⟩).follows.filter (followMatches f g) = [] := by
  have hall : ∀ r ∈ db.follows, followMatches f g r = false :=
    fun r hr => Bool.eq_false_iff.mpr (List.filter_eq_nil_iff.mp h r hr)
  have hany : db.follows.any (followMatches f g) = false :=
    List.any_eq_false.mpr (fun r hr => by simp [hall r hr])
  have hrow : followMatches f g (⟨f, g, "PENDING"⟩ : FollowRow) = true := by
    simp [followMatches]
  have h1 : (handleFollow db ⟨f, g⟩).follows = db.follows ++ [⟨f, g, "PENDING"⟩] := by
    unfold handleFollow followCreate
    rw [if_neg (by rw [hany]; exact Bool.false_ne_true)]
  have h2 : (handleAccept (handleFollow db ⟨f, g⟩) ⟨"Follow", f, g⟩).follows =
      db.follows ++ [⟨f, g, "ACCEPTED"⟩] := by
    unfold handleAccept followUpdateStatus
    rw [if_pos rfl]
    simp only [h1, List.map_append]
    rw [map_update_no_match _ _ _ _ hall]
    simp [hrow]
  constructor
  · rw [h2, List.filter_append, h, List.filter_cons_of_pos (by simp [followMatches])]
    rfl
  · unfold handleUndo followDeleteMany
    rw [if_pos rfl]
    simp only [h2]
    rw [List.filter_filter]
    exact List.filter_eq_nil_iff.mpr (fun r _ => by cases followMatches f g r <;> simp)

/-- Witness for C6 from the empty store. -/
theorem C6_witness :
    (handleAccept (handleFollow ⟨[], []⟩ ⟨"a", "b"⟩) ⟨"Follow", "a", "b"⟩).follows.filter
        (followMatches "a" "b") = [⟨"a", "b", "ACCEPTED"⟩] ∧
    (handleUndo (handleAccept (handleFollow ⟨[], []⟩ ⟨"a", "b"⟩) ⟨"Follow", "a", "b"⟩)
        ⟨"Follow", "a", "b"⟩).follows.filter (followMatches "a" "b") = [] :=
  C6_follow_accept_undo ⟨[], []⟩ "a" "b" rfl

/-- Creating an already-present pair is a no-op, so follow creation is
idempotent. -/
theorem followCreate_idem (db : DB) (f g st : String) :
    followCreate (followCreate db f g st) f g st = followCreate db f g st := by
  unfold followCreate
  by_cases h : db.follows.any (followMatches f g)
  · rw [if_pos h, if_pos h]
  · rw [if_neg h]
    have hrow : followMatches f g (⟨f, g, st⟩ : FollowRow) = true := by simp [followMatches]
    rw [if_pos (by simp [List.any_append, hrow])]

/-- `postCreate` never touches the follow table. -/
theorem postCreate_follows (db : DB) (p : PostRow) : (postCreate db p).follows = db.follows := by
  unfold postCreate
  by_cases h : db.posts.any (fun q => q.id == p.id)
  · rw [if_pos h]
  · rw [if_neg h]

/-- Creating an already-present post id is a no-op, so post creation is
idempotent. -/
theorem postCreate_idem (db : DB) (p : PostRow) :
    postCreate (postCreate db p) p = postCreate db p := by
  unfold postCreate
  by_cases h : db.posts.any (fun q => q.id == p.id)
  · rw [if_pos h, if_pos h]
  · rw [if_neg h]
    rw [if_pos (by simp [List.any_append])]

/-- `followCreate` preserves the at-most-one-row-per-pair invariant. -/
theorem pairUnique_followCreate (db : DB) (f g st : String)
    (hu : pairUnique db.follows) : pairUnique (followCreate db f g st).follows := by
  unfold followCreate
  by_cases h : db.follows.any (followMatches f g)
  · rw [if_pos h]
    exact hu
  · rw [if_neg h]
    intro f' g'
    show ((db.follows ++ ([⟨f, g, st⟩] : List FollowRow)).filter (followMatches f' g')).length ≤ 1
    rw [List.filter_append]
    by_cases hm : followMatches f' g' (⟨f, g, st⟩ : FollowRow)
    · have hfg : f = f' ∧ g = g' := by
        simpa [followMatches] using hm
      have hnil : db.follows.filter (followMatches f' g') = [] := by
        apply List.filter_eq_nil_iff.mpr
        intro r hr
        rw [← hfg.1, ← hfg.2]
        simpa using List.any_eq_false.mp (Bool.eq_false_iff.mpr h) r hr
      rw [hnil, List.filter_cons_of_pos hm]
      simp
    · rw [List.filter_cons_of_neg hm]
      simpa using hu f' g'

/-- Claim C7: inbox processing is idempotent — replaying a `Follow` or a
`Create(Note)` leaves the state of the first processing unchanged — and
every inbox operation preserves the invariant of at most one
`FollowRelationship` row per (follower, following) pair. -/
theorem C7_idempotency_and_invariant :
    (∀ (db : DB) (a : FollowActivity), handleFollow (handleFollow db a) a = handleFollow db a) ∧
    (∀ (db : DB) (a : CreateActivity), handleCreate (handleCreate db a) a = handleCreate db a) ∧
    (∀ (db : DB) (a : FollowActivity), pairUnique db.follows →
      pairUnique (handleFollow db a).follows) ∧
    (∀ (db : DB) (a : CreateActivity), pairUnique db.follows →
      pairUnique (handleCreate db a).follows) ∧
    (∀ (db : DB) (i : InnerFollow), pairUnique db.follows →
      pairUnique (handleAccept db i).follows) ∧
    (∀ (db : DB) (i : InnerFollow), pairUnique db.follows →
      pairUnique (handleUndo db i).follows) ∧
    (∀ (db : DB) (i : InnerFollow), pairUnique db.follows →
      pairUnique (handleReject db i).follows) := by
  have hdel : ∀ (db : DB) (x y : String), pairUnique db.follows →
      pairUnique (followDeleteMany db x y).follows := by
    intro db x y hu f' g'
    unfold followDeleteMany
    calc ((db.follows.filter (fun r => !followMatches x y r)).filter (followMatches f' g')).length
        ≤ (db.follows.filter (followMatches f' g')).length :=
          List.Sublist.length_le
            (List.Sublist.filter _ (List.filter_sublist db.follows))
      _ ≤ 1 := hu f' g'
  refine ⟨?_, ?_, ?_, ?_, ?_, ?_, ?_⟩
  · intro db a
    exact followCreate_idem db a.actor a.object "PENDING"
  · intro db a
    unfold handleCreate
    by_cases h : a.object.type = "Note"
    · simp only [if_pos h]
      exact postCreate_idem db _
    · simp only [if_neg h]
  · intro db a hu
    exact pairUnique_followCreate db a.actor a.object "PENDING" hu
  · intro db a hu
    unfold handleCreate
    by_cases h : a.object.type = "Note"
    · rw [if_pos h, postCreate_follows]
      exact hu
    · rw [if_neg h]
      exact hu
  · intro db i hu
    unfold handleAccept
    by_cases h : i.type = "Follow"
    · rw [if_pos h]
      intro f' g'
      unfold followUpdateStatus
      rw [length_filter_map_pres _ _ _ (followMatches_update i.actor i.object "ACCEPTED" f' g')]
      exact hu f' g'
    · rw [if_neg h]
      exact hu
  · intro db i hu
    unfold handleUndo
    by_cases h : i.type = "Follow"
    · rw [if_pos h]
      exact hdel db i.actor i.object hu
    · rw [if_neg h]
      exact hu
  · intro db i hu
    unfold handleReject
    by_cases h : i.type = "Follow"
    · rw [if_pos h]
      exact hdel db i.actor i.object hu
    · rw [if_neg h]
      exact hu

/-- Witness for C7 at the empty store and a concrete Follow. -/
theorem C7_witness :
    handleFollow (handleFollow ⟨[], []⟩ ⟨"a", "b"⟩) ⟨"a", "b"⟩ = handleFollow ⟨[], []⟩ ⟨"a", "b"⟩ ∧
    pairUnique (handleFollow ⟨[], []⟩ ⟨"a", "b"⟩).follows :=
  ⟨C7_idempotency_and_invariant.1 ⟨[], []⟩ ⟨"a", "b"⟩,
   C7_idempotency_and_invariant.2.2.1 ⟨[], []⟩ ⟨"a", "b"⟩ (fun f g => by simp)⟩

/-- Claim C8, counterexample: a Note addressed to the public collection
only through its `cc` list is stored with `isPublic = false`, because
`handleCreate` consults only `object.to`. -/
theorem C8_counterexample :
    ((handleCreate ⟨[], []⟩ ⟨"https://e.com/users/u1",
        ⟨"Note", "n1", "hi", "", [], [publicCollection], "", "", false⟩⟩).posts.map
      (fun p => p.isPublic)) = [false] ∧
    publicCollection ∈
      (⟨"Note", "n1", "hi", "", [], [publicCollection], "", "", false⟩ : Note).ccAddr := by
  constructor
  · rfl
  · simp

/-- Claim C8, amended: for an inbound `Create` whose object is a `Note`
with a fresh id, the stored Post is marked public exactly when the `to`
list contains the public collection URI; the `cc` list is not consulted. -/
theorem C8_isPublic_iff_to (db : DB) (a : CreateActivity)
    (hn : a.object.type = "Note")
    (hfresh : db.posts.any (fun q => q.id == a.object.id) = false) :
    ∃ p : PostRow, (handleCreate db a).posts = db.posts ++ [p] ∧
      (p.isPublic = true ↔ publicCollection ∈ a.object.toAddr) := by
  unfold handleCreate
  rw [if_pos hn]
  unfold postCreate
  rw [if_neg (by rw [hfresh]; exact Bool.false_ne_true)]
  exact ⟨_, rfl, by simp⟩

/-- Witness for the amended C8 at a concrete publicly addressed Note. -/
theorem C8_witness :
    ∃ p : PostRow,
      (handleCreate ⟨[], []⟩ ⟨"https://e.com/users/u1",
        ⟨"Note", "n2", "hi", "", [publicCollection], [], "", "", false⟩⟩).posts =
        ([] : List PostRow) ++ [p] ∧
      (p.isPublic = true ↔ publicCollection ∈
        (⟨"Note", "n2", "hi", "", [publicCollection], [], "", "", false⟩ : Note).toAddr) :=
  C8_isPublic_iff_to ⟨[], []⟩ _ rfl rfl

/-! ## Signing-string construction (C3) -/

/-- The verifier's line construction succeeds on every name whose header is
present and nonempty, producing exactly the lowercased-name/verbatim-value
lines. -/
theorem mapM_signingLine (req : Request) (names : List String)
    (h : ∀ n ∈ names, n ≠ "(request-target)" → (reqGet req (jsToLower n)).getD "" ≠ "") :
    names.mapM (signingLine req) = Except.ok (names.map (fun n =>
      if n = "(request-target)" then
        "(request-target): " ++ jsToLower req.method ++ " " ++ req.path
      else jsToLower n ++ ": " ++ (reqGet req (jsToLower n)).getD "")) := by
  induction names with
  | nil => rfl
  | cons n l ih =>
    have ihl := ih (fun m hm hmn => h m (by simp [hm]) hmn)
    by_cases hn : n = "(request-target)"
    · rw [List.mapM_cons,
          show signingLine req n =
            Except.ok ("(request-target): " ++ jsToLower req.method ++ " " ++ req.path) by
              unfold signingLine; rw [if_pos hn],
          ihl, List.map_cons, if_pos hn]
      rfl
    · have hv : (reqGet req (jsToLower n)).getD "" ≠ "" := h n (by simp) hn
      rw [List.mapM_cons,
          show signingLine req n =
            Except.ok (jsToLower n ++ ": " ++ (reqGet req (jsToLower n)).getD "") by
              unfold signingLine; rw [if_neg hn, if_neg hv],
          ihl, List.map_cons, if_neg hn]
      rfl

/-- Claim C3, counterexample: on the spec's own example request the
verifier's construction does not equal the spec's §8 example string,
because that example lowercases the date header's value while the code
emits header values exactly as given. -/
theorem C3_counterexample :
    reconstructSigningString
        ⟨"POST", "/inbox", [("host", "example.com"), ("date", "Wed, 21 Oct 2020 07:28:00 GMT")]⟩
        ["(request-target)", "host", "date"] ≠
      .ok "(request-target): post /inbox\nhost: example.com\ndate: wed, 21 oct 2020 07:28:00 gmt" := by
  rw [show reconstructSigningString
        ⟨"POST", "/inbox", [("host", "example.com"), ("date", "Wed, 21 Oct 2020 07:28:00 GMT")]⟩
        ["(request-target)", "host", "date"] =
      .ok "(request-target): post /inbox\nhost: example.com\ndate: Wed, 21 Oct 2020 07:28:00 GMT"
      from rfl]
  intro h
  exact absurd (Except.ok.inj h) (by decide)

/-- Claim C3, amended: for every request and ordered header-name list whose
non-pseudo names are present with nonempty values, the signing string emits
`<lowercased name>: <value>` lines joined by newline with values taken
verbatim, `(request-target)` expanding to `<lowercased method> <path>`; on
the spec's example the result keeps the date value's original case. -/
theorem C3_signing_string :
    (∀ (req : Request) (names : List String),
      (∀ n ∈ names, n ≠ "(request-target)" → (reqGet req (jsToLower n)).getD "" ≠ "") →
      reconstructSigningString req names =
        .ok (specSigningString req.method req.path names
          (fun n => (reqGet req (jsToLower n)).getD ""))) ∧
    reconstructSigningString
        ⟨"POST", "/inbox", [("host", "example.com"), ("date", "Wed, 21 Oct 2020 07:28:00 GMT")]⟩
        ["(request-target)", "host", "date"] =
      .ok "(request-target): post /inbox\nhost: example.com\ndate: Wed, 21 Oct 2020 07:28:00 GMT" := by
  constructor
  · intro req names h
    unfold reconstructSigningString specSigningString
    rw [mapM_signingLine req names h]
    rfl
  · rfl

/-- Witness for the amended C3 at a concrete request. -/
theorem C3_witness :
    reconstructSigningString ⟨"POST", "/inbox", [("host", "h1")]⟩ ["host"] =
      .ok (specSigningString "POST" "/inbox" ["host"]
        (fun n => (reqGet ⟨"POST", "/inbox", [("host", "h1")]⟩ (jsToLower n)).getD "")) :=
  C3_signing_string.1 ⟨"POST", "/inbox", [("host", "h1")]⟩ ["host"]
    (fun n hn _ => by
      rw [List.mem_singleton.1 hn]
      decide)

/-! ## Signature-header codec round trip (C2) -/

/-- Claim C2, counterexample: a well-formed header whose base64 signature
value ends in `=` padding is altered by decoding — the `pair.split('=')`
step truncates the value at the first `=` — so decode followed by
re-encode is not byte-identical. -/
theorem C2_counterexample :
    parseSignatureHeader
        (some (mkSigHeaderRaw "k1" "rsa-sha256" "(request-target) host date" "QUJ=")) =
      some [("keyId", "k1"), ("algorithm", "rsa-sha256"),
            ("headers", "(request-target) host date"), ("signature", "QUJ")] ∧
    reEncodeSignatureHeader [("keyId", "k1"), ("algorithm", "rsa-sha256"),
        ("headers", "(request-target) host date"), ("signature", "QUJ")] ≠
      mkSigHeaderRaw "k1" "rsa-sha256" "(request-target) host date" "QUJ=" := by
  constructor
  · rfl
  · decide

/-- Claim C2, amended: decoding then re-encoding a well-formed `Signature`
header is byte-identical provided no parameter value contains `,` or `=` —
in particular a base64 signature value must carry no `=` padding. -/
theorem C2_roundtrip (kid alg hnames sv : String)
    (hk : goodVal kid) (ha : goodVal alg) (hh : goodVal hnames) (hs : goodVal sv) :
    reEncodeSignatureHeader
        ((parseSignatureHeader (some (mkSigHeaderRaw kid alg hnames sv))).getD []) =
      mkSigHeaderRaw kid alg hnames sv := by
  rw [parse_mkSigHeaderRaw kid alg hnames sv hk ha hh hs]
  unfold reEncodeSignatureHeader
  rw [Option.getD_some]
  rw [show getParam [("keyId", kid), ("algorithm", alg), ("headers", hnames),
        ("signature", sv)] "keyId" = some kid from rfl,
      show getParam [("keyId", kid), ("algorithm", alg), ("headers", hnames),
        ("signature", sv)] "algorithm" = some alg from rfl,
      show getParam [("keyId", kid), ("algorithm", alg), ("headers", hnames),
        ("signature", sv)] "headers" = some hnames from rfl,
      show getParam [("keyId", kid), ("algorithm", alg), ("headers", hnames),
        ("signature", sv)] "signature" = some sv from rfl]
  rfl

/-- Witness for the amended C2 at a concrete padding-free header. -/
theorem C2_witness :
    reEncodeSignatureHeader ((parseSignatureHeader
        (some (mkSigHeaderRaw "k1" "rsa-sha256" "(request-target) host date" "QUJD"))).getD []) =
      mkSigHeaderRaw "k1" "rsa-sha256" "(request-target) host date" "QUJD" :=
  C2_roundtrip "k1" "rsa-sha256" "(request-target) host date" "QUJD"
    (by decide) (by decide) (by decide) (by decide)

/-! ## Verifier claims (C9, C10) -/

/-- `req.get('signature')` finds the signature header at the head of the
header list. -/
theorem reqGet_signature_head (m p M : String) (hs : List (String × String)) :
    reqGet ⟨m, p, ("signature", M) :: hs⟩ "signature" = some M := by
  unfold reqGet
  rw [List.find?_cons_of_pos _ (by rfl)]
  rfl

/-- The required-parameter scan on a four-parameter object reports the
first empty value, in source order. -/
theorem firstMissingParam_quad (kid alg hn sv : String) :
    firstMissingParam [("keyId", kid), ("algorithm", alg), ("headers", hn), ("signature", sv)] =
      if kid = "" then some "keyId"
      else if alg = "" then some "algorithm"
      else if hn = "" then some "headers"
      else if sv = "" then some "signature"
      else none := by
  have g1 : getParam [("keyId", kid), ("algorithm", alg), ("headers", hn), ("signature", sv)]
      "keyId" = some kid := rfl
  have g2 : getParam [("keyId", kid), ("algorithm", alg), ("headers", hn), ("signature", sv)]
      "algorithm" = some alg := rfl
  have g3 : getParam [("keyId", kid), ("algorithm", alg), ("headers", hn), ("signature", sv)]
      "headers" = some hn := rfl
  have g4 : getParam [("keyId", kid), ("algorithm", alg), ("headers", hn), ("signature", sv)]
      "signature" = some sv := rfl
  unfold firstMissingParam
  by_cases h1 : kid = ""
  · rw [List.find?_cons_of_pos _ (by rw [g1]; simp [jsTruthy, h1]), if_pos h1]
  · rw [List.find?_cons_of_neg _ (by rw [g1, (jsTruthy_some_iff kid).mpr h1]; simp), if_neg h1]
    by_cases h2 : alg = ""
    · rw [List.find?_cons_of_pos _ (by rw [g2]; simp [jsTruthy, h2]), if_pos h2]
    · rw [List.find?_cons_of_neg _ (by rw [g2, (jsTruthy_some_iff alg).mpr h2]; simp), if_neg h2]
      by_cases h3 : hn = ""
      · rw [List.find?_cons_of_pos _ (by rw [g3]; simp [jsTruthy, h3]), if_pos h3]
      · rw [List.find?_cons_of_neg _ (by rw [g3, (jsTruthy_some_iff hn).mpr h3]; simp), if_neg h3]
        by_cases h4 : sv = ""
        · rw [List.find?_cons_of_pos _ (by rw [g4]; simp [jsTruthy, h4]), if_pos h4]
        · rw [List.find?_cons_of_neg _ (by rw [g4, (jsTruthy_some_iff sv).mpr h4]; simp),
              if_neg h4]
          rfl

/-- Claim C10: the verifier resolves a keyId only by exact equality with a
stored `actorUrl`; when no user matches character-for-character (for
example a keyId carrying a `#main-key` fragment), verification fails with
the actor-not-found error and the middleware answers 401. -/
theorem C10_keyid_exact_match (store : List User) (m p kid a hn sv : String)
    (hs : List (String × String))
    (hk : goodVal kid) (ha : goodVal a) (hh : goodVal hn) (hsv : goodVal sv)
    (hk0 : kid ≠ "") (ha0 : a ≠ "") (hh0 : hn ≠ "") (hsv0 : sv ≠ "")
    (hnone : ∀ u ∈ store, u.actorUrl ≠ kid) :
    verifySignature store ⟨m, p, ("signature", mkSigHeaderRaw kid a hn sv) :: hs⟩ =
      { verified := false, error := some ("Actor not found or has no public key: " ++ kid) } ∧
    httpSignatureMw false store ⟨m, p, ("signature", mkSigHeaderRaw kid a hn sv) :: hs⟩ =
      .unauthorized (some ("Actor not found or has no public key: " ++ kid)) := by
  have hfind : findActor store kid = none :=
    List.find?_eq_none.mpr (fun u hu => by simpa using hnone u hu)
  have hE : verifySignatureE store ⟨m, p, ("signature", mkSigHeaderRaw kid a hn sv) :: hs⟩ =
      .error ("Actor not found or has no public key: " ++ kid) := by
    unfold verifySignatureE
    rw [reqGet_signature_head, parse_mkSigHeaderRaw kid a hn sv hk ha hh hsv]
    simp only [firstMissingParam_quad, if_neg hk0, if_neg ha0, if_neg hh0, if_neg hsv0]
    rw [show (getParam [("keyId", kid), ("algorithm", a), ("headers", hn), ("signature", sv)]
          "keyId").getD "" = kid from rfl]
    rw [hfind]
  have hV : verifySignature store ⟨m, p, ("signature", mkSigHeaderRaw kid a hn sv) :: hs⟩ =
      { verified := false, error := some ("Actor not found or has no public key: " ++ kid) } := by
    unfold verifySignature
    rw [hE]
  refine ⟨hV, ?_⟩
  unfold httpSignatureMw
  rw [if_neg Bool.false_ne_true, hV]
  rfl

/-- Witness for C10 at a concrete fragment-bearing keyId. -/
theorem C10_witness :
    verifySignature [⟨"https://e.com/users/alice", "PK1"⟩]
        ⟨"POST", "/inbox", [("signature", mkSigHeaderRaw "https://e.com/users/alice#main-key"
          "rsa-sha256" "(request-target) host date" "QUJD")]⟩ =
      { verified := false, error := some
          ("Actor not found or has no public key: " ++ "https://e.com/users/alice#main-key") } ∧
    httpSignatureMw false [⟨"https://e.com/users/alice", "PK1"⟩]
        ⟨"POST", "/inbox", [("signature", mkSigHeaderRaw "https://e.com/users/alice#main-key"
          "rsa-sha256" "(request-target) host date" "QUJD")]⟩ =
      .unauthorized (some
          ("Actor not found or has no public key: " ++ "https://e.com/users/alice#main-key")) :=
  C10_keyid_exact_match [⟨"https://e.com/users/alice", "PK1"⟩] "POST" "/inbox"
    "https://e.com/users/alice#main-key" "rsa-sha256" "(request-target) host date" "QUJD" []
    (by decide) (by decide) (by decide) (by decide)
    (by decide) (by decide) (by decide) (by decide)
    (fun u hu => by rw [List.mem_singleton.1 hu]; decide)

/-- Two requests whose lines agree name-wise give the same mapped lines. -/
theorem mapM_signingLine_congr (r1 r2 : Request) (names : List String)
    (h : ∀ n ∈ names, signingLine r1 n = signingLine r2 n) :
    names.mapM (signingLine r1) = names.mapM (signingLine r2) := by
  induction names with
  | nil => rfl
  | cons n l ih =>
    rw [List.mapM_cons, List.mapM_cons, h n (by simp), ih (fun x hx => h x (by simp [hx]))]

/-- Two requests whose lines agree name-wise reconstruct the same signing
string. -/
theorem reconstruct_congr (r1 r2 : Request) (names : List String)
    (h : ∀ n ∈ names, signingLine r1 n = signingLine r2 n) :
    reconstructSigningString r1 names = reconstructSigningString r2 names := by
  unfold reconstructSigningString
  rw [mapM_signingLine_congr r1 r2 names h]

/-- A signing-string line never reads the `signature` header value itself
when the claimed name does not resolve to `signature`, so it is unaffected
by the signature header at the head of the request. -/
theorem signingLine_skip_sig (m p M1 M2 : String) (hs : List (String × String)) (n : String)
    (hn' : ("signature" : String) ≠ jsToLower (jsToLower n)) :
    signingLine ⟨m, p, ("signature", M1) :: hs⟩ n =
      signingLine ⟨m, p, ("signature", M2) :: hs⟩ n := by
  have hskip : ∀ M : String,
      reqGet ⟨m, p, ("signature", M) :: hs⟩ (jsToLower n) = reqGet ⟨m, p, hs⟩ (jsToLower n) := by
    intro M
    unfold reqGet
    rw [List.find?_cons_of_neg _ (by
      show ¬((jsToLower ("signature", M).1 == jsToLower (jsToLower n)) = true)
      rw [show jsToLower ("signature", M).1 = "signature" from rfl]
      simp [hn'])]
  unfold signingLine
  by_cases hrt : n = "(request-target)"
  · rw [if_pos hrt, if_pos hrt]
  · rw [if_neg hrt, if_neg hrt, hskip M1, hskip M2]

/-- Claim C9: the verifier never inspects the algorithm parameter beyond
its presence — two requests identical except for a (non-empty) algorithm
value produce the same `verified` outcome, the check always being RSA-PSS
over SHA-256.  (The claimed header list must not name the `signature`
header itself, which no real signer does.) -/
theorem C9_algorithm_ignored (store : List User) (m p kid hn sv a1 a2 : String)
    (hs : List (String × String))
    (hk : goodVal kid) (hh : goodVal hn) (hsv : goodVal sv)
    (ha1 : goodVal a1) (ha2 : goodVal a2) (ha1n : a1 ≠ "") (ha2n : a2 ≠ "")
    (hsig : ∀ n ∈ jsSplit ' ' hn, ("signature" : String) ≠ jsToLower (jsToLower n)) :
    (verifySignature store ⟨m, p, ("signature", mkSigHeaderRaw kid a1 hn sv) :: hs⟩).verified =
    (verifySignature store ⟨m, p, ("signature", mkSigHeaderRaw kid a2 hn sv) :: hs⟩).verified := by
  by_cases hk0 : kid = ""
  · unfold verifySignature verifySignatureE
    rw [reqGet_signature_head, reqGet_signature_head,
        parse_mkSigHeaderRaw kid a1 hn sv hk ha1 hh hsv,
        parse_mkSigHeaderRaw kid a2 hn sv hk ha2 hh hsv]
    simp only [firstMissingParam_quad, if_pos hk0]
  · by_cases hh0 : hn = ""
    · unfold verifySignature verifySignatureE
      rw [reqGet_signature_head, reqGet_signature_head,
          parse_mkSigHeaderRaw kid a1 hn sv hk ha1 hh hsv,
          parse_mkSigHeaderRaw kid a2 hn sv hk ha2 hh hsv]
      simp only [firstMissingParam_quad, if_neg hk0, if_neg ha1n, if_neg ha2n, if_pos hh0]
    · by_cases hs0 : sv = ""
      · unfold verifySignature verifySignatureE
        rw [reqGet_signature_head, reqGet_signature_head,
            parse_mkSigHeaderRaw kid a1 hn sv hk ha1 hh hsv,
            parse_mkSigHeaderRaw kid a2 hn sv hk ha2 hh hsv]
        simp only [firstMissingParam_quad, if_neg hk0, if_neg ha1n, if_neg ha2n, if_neg hh0,
          if_pos hs0]
      · have hrec : reconstructSigningString
            ⟨m, p, ("signature", mkSigHeaderRaw kid a1 hn sv) :: hs⟩ (jsSplit ' ' hn) =
            reconstructSigningString
            ⟨m, p, ("signature", mkSigHeaderRaw kid a2 hn sv) :: hs⟩ (jsSplit ' ' hn) :=
          reconstruct_congr _ _ _ (fun n hn' =>
            signingLine_skip_sig m p _ _ hs n (hsig n hn'))
        unfold verifySignature verifySignatureE
        rw [reqGet_signature_head, reqGet_signature_head,
            parse_mkSigHeaderRaw kid a1 hn sv hk ha1 hh hsv,
            parse_mkSigHeaderRaw kid a2 hn sv hk ha2 hh hsv]
        simp only [firstMissingParam_quad, if_neg hk0, if_neg ha1n, if_neg ha2n, if_neg hh0,
          if_neg hs0]
        rw [show (getParam [("keyId", kid), ("algorithm", a1), ("headers", hn),
              ("signature", sv)] "keyId").getD "" = kid from rfl,
            show (getParam [("keyId", kid), ("algorithm", a2), ("headers", hn),
              ("signature", sv)] "keyId").getD "" = kid from rfl,
            show (getParam [("keyId", kid), ("algorithm", a1), ("headers", hn),
              ("signature", sv)] "headers").getD "" = hn from rfl,
            show (getParam [("keyId", kid), ("algorithm", a2), ("headers", hn),
              ("signature", sv)] "headers").getD "" = hn from rfl,
            show (getParam [("keyId", kid), ("algorithm", a1), ("headers", hn),
              ("signature", sv)] "signature").getD "" = sv from rfl,
            show (getParam [("keyId", kid), ("algorithm", a2), ("headers", hn),
              ("signature", sv)] "signature").getD "" = sv from rfl,
            hrec]
        cases hfa : findActor store kid with
        | none => rfl
        | some u =>
          by_cases hpk : u.publicKey = ""
          · simp only [if_pos hpk]
          · simp only [if_neg hpk]
            cases hrc : reconstructSigningString
                ⟨m, p, ("signature", mkSigHeaderRaw kid a2 hn sv) :: hs⟩ (jsSplit ' ' hn) with
            | error e => rfl
            | ok s =>
              by_cases hv : rsaVerify u.publicKey s (b64Decode sv)
              · simp only [if_pos hv]
              · simp only [if_neg hv]

/-- Witness for C9 at two concrete algorithm values. -/
theorem C9_witness :
    (verifySignature [] ⟨"POST", "/inbox", [("signature", mkSigHeaderRaw "k1" "rsa-sha256"
        "(request-target) host date" "QUJD")]⟩).verified =
    (verifySignature [] ⟨"POST", "/inbox", [("signature", mkSigHeaderRaw "k1" "hs2019"
        "(request-target) host date" "QUJD")]⟩).verified :=
  C9_algorithm_ignored [] "POST" "/inbox" "k1" "(request-target) host date" "QUJD"
    "rsa-sha256" "hs2019" []
    (by decide) (by decide) (by decide) (by decide) (by decide) (by decide) (by decide)
    (by decide)

/-! ## Sign/verify round trip (C1) -/

/-- A string with a nonempty character list is nonempty. -/
theorem strMk_ne_empty (l : List Char) (h : l ≠ []) : (⟨l⟩ : String) ≠ "" :=
  fun hf => h (congrArg String.data hf)

/-- Symbolic public keys are never the empty string. -/
theorem pubOfPriv_ne_empty (priv : String) : pubOfPriv priv ≠ "" := by
  intro h
  have h' := congrArg String.data h
  unfold pubOfPriv at h'
  rw [data_append] at h'
  simp at h'

/-- A truthy lookup yields a nonempty value. -/
theorem jsTruthy_elim (o : Option String) (h : jsTruthy o = true) :
    ∃ v, o = some v ∧ v ≠ "" := by
  cases o with
  | none => exact absurd h (by simp [jsTruthy])
  | some v => exact ⟨v, rfl, by simpa [jsTruthy] using h⟩

/-- The round-trip core: a request carrying the headers produced by the
signer — the signature header over the signing string `s` built from the
final header object `h2` — verifies against the matching public key in the
store, returning the signing keyId.  The equations `hnames`, `hss`,
`hsigHdr` and `houtH` restate the corresponding `let`-steps of
`createSignature`. -/
theorem verify_sign_roundtrip_core (store : List User) (u : User)
    (priv K method pathname hostV dateV : String)
    (h2 outH : List (String × String)) (names : List String) (s sigHdr : String)
    (hnames : names = ["(request-target)", "host", "date"] ++
      (if jsTruthy (jsObjGet h2 "digest") then ["digest"] else []))
    (hss : s = jsJoin '\n' (names.map (fun h =>
      if h = "(request-target)" then
        "(request-target): " ++ jsToLower method ++ " " ++ pathname
      else h ++ ": " ++ ((jsObjGet h2 h).getD "undefined"))))
    (hsigHdr : sigHdr = mkSigHeaderRaw K "rsa-sha256" (jsJoin ' ' names)
      (b64Encode (rsaSign priv s)))
    (houtH : outH = jsObjSet (jsObjSet (jsObjSet h2 "signature" sigHdr)
      "content-type" "application/activity+json") "accept" "application/activity+json")
    (hfind : findActor store K = some u) (hkey : u.publicKey = pubOfPriv priv)
    (hkid : goodVal K) (hk0 : K ≠ "") (hcanon : canonKeys h2)
    (hhost : jsObjGet h2 "host" = some hostV) (hhost0 : hostV ≠ "")
    (hdate : jsObjGet h2 "date" = some dateV) (hdate0 : dateV ≠ "") :
    (verifySignature store ⟨method, pathname, outH⟩).verified = true ∧
    (verifySignature store ⟨method, pathname, outH⟩).keyId = some K := by
  have canonOut : canonKeys outH := by
    rw [houtH]
    exact canonKeys_set _ _ _ (canonKeys_set _ _ _ (canonKeys_set _ _ _ hcanon rfl) rfl) rfl
  have hgetSig : reqGet ⟨method, pathname, outH⟩ "signature" = some sigHdr := by
    rw [reqGet_eq_jsObjGet outH method pathname "signature" canonOut rfl, houtH,
        jsObjGet_set_ne _ _ _ _ (by decide), jsObjGet_set_ne _ _ _ _ (by decide),
        jsObjGet_set_self]
  have hostOut : reqGet ⟨method, pathname, outH⟩ "host" = some hostV := by
    rw [reqGet_eq_jsObjGet outH method pathname "host" canonOut rfl, houtH,
        jsObjGet_set_ne _ _ _ _ (by decide), jsObjGet_set_ne _ _ _ _ (by decide),
        jsObjGet_set_ne _ _ _ _ (by decide), hhost]
  have dateOut : reqGet ⟨method, pathname, outH⟩ "date" = some dateV := by
    rw [reqGet_eq_jsObjGet outH method pathname "date" canonOut rfl, houtH,
        jsObjGet_set_ne _ _ _ _ (by decide), jsObjGet_set_ne _ _ _ _ (by decide),
        jsObjGet_set_ne _ _ _ _ (by decide), hdate]
  have hline1 : signingLine ⟨method, pathname, outH⟩ "(request-target)" =
      .ok ("(request-target): " ++ jsToLower method ++ " " ++ pathname) := by
    unfold signingLine
    rw [if_pos rfl]
  have hline2 : signingLine ⟨method, pathname, outH⟩ "host" =
      .ok ("host" ++ ": " ++ hostV) := by
    unfold signingLine
    rw [if_neg (by decide), show jsToLower "host" = "host" from rfl, hostOut,
        show (some hostV).getD "" = hostV from rfl, if_neg hhost0]
  have hline3 : signingLine ⟨method, pathname, outH⟩ "date" =
      .ok ("date" ++ ": " ++ dateV) := by
    unfold signingLine
    rw [if_neg (by decide), show jsToLower "date" = "date" from rfl, dateOut,
        show (some dateV).getD "" = dateV from rfl, if_neg hdate0]
  have hbytes0 : rsaSign priv s ≠ [] := rsaSign_ne_nil priv s
  have hbytesLt : ∀ b ∈ rsaSign priv s, b < 256 := rsaSign_lt_256 priv s
  have hsv0 : (⟨b64EncodeChars (rsaSign priv s)⟩ : String) ≠ "" :=
    strMk_ne_empty _ (b64EncodeChars_ne_nil _ hbytes0)
  have hpub0 : u.publicKey ≠ "" := by
    rw [hkey]
    exact pubOfPriv_ne_empty priv
  by_cases hdg : jsTruthy (jsObjGet h2 "digest") = true
  · -- digest header present: four signed names
    obtain ⟨dgV, hdgV, hdgV0⟩ := jsTruthy_elim _ hdg
    have dgOut : reqGet ⟨method, pathname, outH⟩ "digest" = some dgV := by
      rw [reqGet_eq_jsObjGet outH method pathname "digest" canonOut rfl, houtH,
          jsObjGet_set_ne _ _ _ _ (by decide), jsObjGet_set_ne _ _ _ _ (by decide),
          jsObjGet_set_ne _ _ _ _ (by decide), hdgV]
    have hline4 : signingLine ⟨method, pathname, outH⟩ "digest" =
        .ok ("digest" ++ ": " ++ dgV) := by
      unfold signingLine
      rw [if_neg (by decide), show jsToLower "digest" = "digest" from rfl, dgOut,
          show (some dgV).getD "" = dgV from rfl, if_neg hdgV0]
    have hnames' : names = ["(request-target)", "host", "date", "digest"] := by
      rw [hnames, if_pos hdg]
      rfl
    have hs' : s = jsJoin '\n'
        ["(request-target): " ++ jsToLower method ++ " " ++ pathname,
         "host" ++ ": " ++ hostV, "date" ++ ": " ++ dateV, "digest" ++ ": " ++ dgV] := by
      rw [hss, hnames']
      simp only [List.map_cons, List.map_nil, reduceIte]
      rw [hhost, hdate, hdgV]
      rfl
    have hsig' : sigHdr = mkSigHeaderRaw K "rsa-sha256" "(request-target) host date digest"
        (b64Encode (rsaSign priv s)) := by
      rw [hsigHdr, hnames']
      rfl
    have hrec : reconstructSigningString ⟨method, pathname, outH⟩
        ["(request-target)", "host", "date", "digest"] = .ok s := by
      unfold reconstructSigningString
      rw [List.mapM_cons, hline1, List.mapM_cons, hline2, List.mapM_cons, hline3,
          List.mapM_cons, hline4, List.mapM_nil]
      rw [hs']
      rfl
    unfold verifySignature verifySignatureE
    rw [hgetSig, hsig',
        parse_mk_b64 K "rsa-sha256" "(request-target) host date digest" (rsaSign priv s)
          hkid (by decide) (by decide) hbytes0 hbytesLt]
    simp only [firstMissingParam_quad, if_neg hk0,
      if_neg (show ("rsa-sha256" : String) ≠ "" by decide),
      if_neg (show ("(request-target) host date digest" : String) ≠ "" by decide),
      if_neg hsv0]
    rw [show (getParam [("keyId", K), ("algorithm", "rsa-sha256"),
          ("headers", "(request-target) host date digest"),
          ("signature", ⟨b64EncodeChars (rsaSign priv s)⟩)] "keyId").getD "" = K from rfl]
    simp only [hfind]
    rw [if_neg hpub0]
    rw [show (getParam [("keyId", K), ("algorithm", "rsa-sha256"),
          ("headers", "(request-target) host date digest"),
          ("signature", ⟨b64EncodeChars (rsaSign priv s)⟩)] "headers").getD "" =
        "(request-target) host date digest" from rfl]
    rw [show jsSplit ' ' "(request-target) host date digest" =
        ["(request-target)", "host", "date", "digest"] from rfl]
    simp only [hrec]
    rw [show (getParam [("keyId", K), ("algorithm", "rsa-sha256"),
          ("headers", "(request-target) host date digest"),
          ("signature", ⟨b64EncodeChars (rsaSign priv s)⟩)] "signature").getD "" =
        (⟨b64EncodeChars (rsaSign priv s)⟩ : String) from rfl]
    rw [b64Decode_encodeChars _ hbytesLt, hkey, rsaVerify_rsaSign, if_pos rfl]
    exact ⟨rfl, rfl⟩
  · -- no digest header: three signed names
    have hnames' : names = ["(request-target)", "host", "date"] := by
      rw [hnames, if_neg hdg]
      rfl
    have hs' : s = jsJoin '\n'
        ["(request-target): " ++ jsToLower method ++ " " ++ pathname,
         "host" ++ ": " ++ hostV, "date" ++ ": " ++ dateV] := by
      rw [hss, hnames']
      simp only [List.map_cons, List.map_nil, reduceIte]
      rw [hhost, hdate]
      rfl
    have hsig' : sigHdr = mkSigHeaderRaw K "rsa-sha256" "(request-target) host date"
        (b64Encode (rsaSign priv s)) := by
      rw [hsigHdr, hnames']
      rfl
    have hrec : reconstructSigningString ⟨method, pathname, outH⟩
        ["(request-target)", "host", "date"] = .ok s := by
      unfold reconstructSigningString
      rw [List.mapM_cons, hline1, List.mapM_cons, hline2, List.mapM_cons, hline3,
          List.mapM_nil]
      rw [hs']
      rfl
    unfold verifySignature verifySignatureE
    rw [hgetSig, hsig',
        parse_mk_b64 K "rsa-sha256" "(request-target) host date" (rsaSign priv s)
          hkid (by decide) (by decide) hbytes0 hbytesLt]
    simp only [firstMissingParam_quad, if_neg hk0,
      if_neg (show ("rsa-sha256" : String) ≠ "" by decide),
      if_neg (show ("(request-target) host date" : String) ≠ "" by decide),
      if_neg hsv0]
    rw [show (getParam [("keyId", K), ("algorithm", "rsa-sha256"),
          ("headers", "(request-target) host date"),
          ("signature", ⟨b64EncodeChars (rsaSign priv s)⟩)] "keyId").getD "" = K from rfl]
    simp only [hfind]
    rw [if_neg hpub0]
    rw [show (getParam [("keyId", K), ("algorithm", "rsa-sha256"),
          ("headers", "(request-target) host date"),
          ("signature", ⟨b64EncodeChars (rsaSign priv s)⟩)] "headers").getD "" =
        "(request-target) host date" from rfl]
    rw [show jsSplit ' ' "(request-target) host date" =
        ["(request-target)", "host", "date"] from rfl]
    simp only [hrec]
    rw [show (getParam [("keyId", K), ("algorithm", "rsa-sha256"),
          ("headers", "(request-target) host date"),
          ("signature", ⟨b64EncodeChars (rsaSign priv s)⟩)] "signature").getD "" =
        (⟨b64EncodeChars (rsaSign priv s)⟩ : String) from rfl]
    rw [b64Decode_encodeChars _ hbytesLt, hkey, rsaVerify_rsaSign, if_pos rfl]
    exact ⟨rfl, rfl⟩

set_option maxRecDepth 100000 in
/-- Claim C1, counterexample: a request signed by `createSignature` for a
URL carrying a query string fails verification even when presented
unmodified with the matching key in the store, because the signer signs
`pathname + search` while the verifier reconstructs from `req.path`
(which carries no query). -/
theorem C1_counterexample :
    (verifySignature [⟨"k", pubOfPriv "p"⟩]
      ⟨"POST", "/i",
        (createSignature "p" "k" "POST" ⟨"/i", "?a"⟩ [("host", "h")] "" "d").2⟩).verified =
      false := by
  decide

/-- Claim C1, amended: a request produced by `createSignature` and
presented unmodified to `verifySignature` together with the matching
public key verifies with the same keyId, provided the signed URL has no
query string, the keyId is a nonempty string free of `,` and `=`, the
caller's header object has lowercase keys and a nonempty `host` value, and
the date value used is nonempty. -/
theorem C1_sign_verify_roundtrip (store : List User) (u : User)
    (priv K method now hostV : String) (url : URLParts)
    (hdrs : List (String × String)) (body : String)
    (hfind : findActor store K = some u) (hkey : u.publicKey = pubOfPriv priv)
    (hsearch : url.search = "")
    (hkid : goodVal K) (hk0 : K ≠ "") (hcanon : canonKeys hdrs)
    (hhost : jsObjGet hdrs "host" = some hostV) (hhost0 : hostV ≠ "")
    (hnow : now ≠ "") :
    (verifySignature store ⟨method, url.pathname,
        (createSignature priv K method url hdrs body now).2⟩).verified = true ∧
    (verifySignature store ⟨method, url.pathname,
        (createSignature priv K method url hdrs body now).2⟩).keyId = some K := by
  set h1 : List (String × String) :=
    if jsTruthy (jsObjGet hdrs "date") then hdrs else jsObjSet hdrs "date" now with hh1
  set h2 : List (String × String) :=
    if (jsToUpper method == "POST" || jsToUpper method == "PUT") && body != "" then
      jsObjSet h1 "digest" ("SHA-256=" ++ b64Encode (sha256Model (jsonStringifyModel body)))
    else h1 with hh2
  have hc1 : canonKeys h1 := by
    rw [hh1]
    by_cases h : jsTruthy (jsObjGet hdrs "date") = true
    · rw [if_pos h]
      exact hcanon
    · rw [if_neg h]
      exact canonKeys_set _ _ _ hcanon rfl
  have hhost1 : jsObjGet h1 "host" = some hostV := by
    rw [hh1]
    by_cases h : jsTruthy (jsObjGet hdrs "date") = true
    · rw [if_pos h]
      exact hhost
    · rw [if_neg h, jsObjGet_set_ne _ _ _ _ (by decide)]
      exact hhost
  have hdate1 : ∃ d, jsObjGet h1 "date" = some d ∧ d ≠ "" := by
    rw [hh1]
    by_cases h : jsTruthy (jsObjGet hdrs "date") = true
    · rw [if_pos h]
      exact jsTruthy_elim _ h
    · rw [if_neg h]
      exact ⟨now, jsObjGet_set_self _ _ _, hnow⟩
  have hc2 : canonKeys h2 := by
    rw [hh2]
    by_cases h : ((jsToUpper method == "POST" || jsToUpper method == "PUT") && body != "") = true
    · rw [if_pos h]
      exact canonKeys_set _ _ _ hc1 rfl
    · rw [if_neg h]
      exact hc1
  have hhost2 : jsObjGet h2 "host" = some hostV := by
    rw [hh2]
    by_cases h : ((jsToUpper method == "POST" || jsToUpper method == "PUT") && body != "") = true
    · rw [if_pos h, jsObjGet_set_ne _ _ _ _ (by decide)]
      exact hhost1
    · rw [if_neg h]
      exact hhost1
  have hdate2 : ∃ d, jsObjGet h2 "date" = some d ∧ d ≠ "" := by
    obtain ⟨d, hd, hd0⟩ := hdate1
    refine ⟨d, ?_, hd0⟩
    rw [hh2]
    by_cases h : ((jsToUpper method == "POST" || jsToUpper method == "PUT") && body != "") = true
    · rw [if_pos h, jsObjGet_set_ne _ _ _ _ (by decide)]
      exact hd
    · rw [if_neg h]
      exact hd
  obtain ⟨dV, hdV, hdV0⟩ := hdate2
  refine verify_sign_roundtrip_core store u priv K method url.pathname hostV dV h2
    ((createSignature priv K method url hdrs body now).2) _ _ _
    rfl rfl rfl ?_ hfind hkey hkid hk0 hc2 hhost2 hhost0 hdV hdV0
  rw [hh2, hh1]
  simp only [createSignature]
  rw [hsearch, String.append_empty]

/-- Witness for the amended C1 at a concrete signer run. -/
theorem C1_witness :
    (verifySignature [⟨"k", pubOfPriv "p"⟩]
      ⟨"POST", "/i",
        (createSignature "p" "k" "POST" ⟨"/i", ""⟩ [("host", "h")] "" "d").2⟩).verified = true ∧
    (verifySignature [⟨"k", pubOfPriv "p"⟩]
      ⟨"POST", "/i",
        (createSignature "p" "k" "POST" ⟨"/i", ""⟩ [("host", "h")] "" "d").2⟩).keyId =
      some "k" :=
  C1_sign_verify_roundtrip [⟨"k", pubOfPriv "p"⟩] ⟨"k", pubOfPriv "p"⟩ "p" "k" "POST" "d" "h"
    ⟨"/i", ""⟩ [("host", "h")] ""
    rfl rfl rfl (by decide) (by decide) (by decide) rfl (by decide) (by decide)

end Social
